import Mathlib

/-!
Verification of the design-token pipeline (seed color → Material theme →
layered CSS token files).  The definitions below are shallow embeddings of
the TypeScript sources: `src/generator.ts` (theme generation),
`src/tokens/colors.ts` (color formatting), `src/tokens/openprops.ts`
(third-party CSS adaptation and the semantic renderer), the configuration
module (`DEFAULT_CONFIG` / `mergeConfig`) and the token orchestrator
(`generateTokens`).  Strings are modelled as Lean `String`s and the
JavaScript regular-expression rewrites as explicit character scanners.
-/

set_option maxRecDepth 10000

/-! ## Theme generation (src/generator.ts, generateTheme and helpers)

The perceptual color engine (`@material/material-color-utilities`) is an
external collaborator: it is modelled as a bundle of opaque functions over
an abstract HCT type `H`, scheme-colors type `σ` and palettes type `π`.
`generateTheme` itself (normalization of the seed, the fixed description
text, the construction of the six schemes) is embedded faithfully.  The
call-time timestamp `new Date().toISOString().replace("T", " ").slice(0, 19)`
is passed in as the `now` argument. -/

/-- The seven scheme variants accepted by the generator. -/
inductive SchemeVariant where
  | tonalSpot | content | expressive | fidelity | monochrome | neutral | vibrant
deriving DecidableEq, Repr

/-- Contrast levels (CONTRAST_LEVELS in src/generator.ts). -/
def CONTRAST_STANDARD : ℚ := 0

/-- Contrast level "medium". -/
def CONTRAST_MEDIUM : ℚ := 1/2

/-- Contrast level "high". -/
def CONTRAST_HIGH : ℚ := 1

/-- External engine: argbFromHex, Hct.fromInt, scheme construction plus
color extraction (createScheme / extractSchemeColors), and palette
construction (generatePalettes fixes isDark=false, contrast=standard
inside the engine call). -/
structure Engine (H σ π : Type) where
  argbFromHex : String → Int
  hctFromInt : Int → H
  schemeColors : SchemeVariant → Bool → ℚ → H → σ
  palettes : SchemeVariant → H → π

/-- The six named schemes (interface Schemes). -/
structure Schemes (σ : Type) where
  light : σ
  lightMediumContrast : σ
  lightHighContrast : σ
  dark : σ
  darkMediumContrast : σ
  darkHighContrast : σ
deriving DecidableEq

/-- Core colors extracted from the seed (interface CoreColors). -/
structure CoreColors where
  primary : String
deriving DecidableEq

/-- Complete Material theme (interface MaterialTheme). -/
structure MaterialTheme (σ π : Type) where
  description : String
  seed : String
  coreColors : CoreColors
  extendedColors : List String
  schemes : Schemes σ
  palettes : π

/-- Models String.prototype.toUpperCase on ASCII strings. -/
def asciiUpper (s : String) : String := String.mk (s.data.map Char.toUpper)

/-- Models seedHex.startsWith("#"). -/
def startsWithHash (s : String) : Bool :=
  match s.data with
  | '#' :: _ => true
  | _ => false

/-- Seed normalization performed by generateTheme (src/generator.ts lines
293-295): ensure a leading `#` and uppercase. -/
def normalizeSeed (seedHex : String) : String :=
  if startsWithHash seedHex then asciiUpper seedHex else "#" ++ asciiUpper seedHex

/-- generateSchemes (src/generator.ts lines 237-258): the six variants from
one source HCT. -/
def generateSchemes {H σ π : Type} (e : Engine H σ π) (hct : H)
    (variant : SchemeVariant) : Schemes σ :=
  { light := e.schemeColors variant false CONTRAST_STANDARD hct
    lightMediumContrast := e.schemeColors variant false CONTRAST_MEDIUM hct
    lightHighContrast := e.schemeColors variant false CONTRAST_HIGH hct
    dark := e.schemeColors variant true CONTRAST_STANDARD hct
    darkMediumContrast := e.schemeColors variant true CONTRAST_MEDIUM hct
    darkHighContrast := e.schemeColors variant true CONTRAST_HIGH hct }

/-- generateTheme (src/generator.ts lines 288-314). -/
def generateTheme {H σ π : Type} (e : Engine H σ π) (now : String)
    (seedHex : String) (variant : SchemeVariant) : MaterialTheme σ π :=
  let normalizedSeed := normalizeSeed seedHex
  let argb := e.argbFromHex normalizedSeed
  let sourceHct := e.hctFromInt argb
  { description := "TYPE: CUSTOM\nMaterial Theme Builder export " ++ now
    seed := normalizedSeed
    coreColors := { primary := normalizedSeed }
    extendedColors := []
    schemes := generateSchemes e sourceHct variant
    palettes := e.palettes variant sourceHct }

/-! ## Open Props fetcher (src/tokens/openprops.ts, fetchOpenProps)

The name → source-path map and the lookup that guards the network call.
The network itself is external; `fetchOpenPropsTrace` returns the
outcome of the guard together with the list of URLs the function
requests (empty when the guard throws, since the lookup happens before
the fetch). -/

/-- OPENPROPS_SOURCE_FILES (src/tokens/openprops.ts lines 10-19). -/
def OPENPROPS_SOURCE_FILES : List (String × String) :=
  [("fonts", "props.fonts.css"),
   ("sizes", "props.sizes.css"),
   ("shadows", "props.shadows.css"),
   ("borders", "props.borders.css"),
   ("easings", "props.easing.css"),
   ("animations", "props.animations.css"),
   ("aspects", "props.aspects.css"),
   ("zindex", "props.zindex.css")]

/-- fetchOpenProps (src/tokens/openprops.ts lines 24-49), effect view: the
`Except` is the synchronous throw on an unknown file name; the list is the
URLs fetched over the network by the remainder of the function body. -/
def fetchOpenPropsTrace (baseUrl fileName : String) :
    Except String Unit × List String :=
  match OPENPROPS_SOURCE_FILES.lookup fileName with
  | none => (Except.error ("Unknown Open Props file: " ++ fileName), [])
  | some sourcePath => (Except.ok (), [baseUrl ++ "/" ++ sourcePath])

/-! ## Configuration (config module: DEFAULT_CONFIG, mergeConfig)

JavaScript objects with possibly-missing keys are modelled with `Option`
fields; an object spread `\x7b...defaults, ...user\x7d` therefore becomes a
field-wise `Option.getD`.  Semantic categories are association lists. -/

/-- CSS variable prefixes (interface Prefixes). -/
structure Prefixes where
  primitives : String
  palette : String
  semantic : String
deriving DecidableEq

/-- Partial Prefixes as a user override object. -/
structure PartialPrefixes where
  primitives : Option String := none
  palette : Option String := none
  semantic : Option String := none

/-- Output directory structure (interface OutputConfig). -/
structure OutputConfig where
  dir : String
  paletteSubdir : String
  openpropsSubdir : String
deriving DecidableEq

/-- Partial OutputConfig as a user override object. -/
structure PartialOutputConfig where
  dir : Option String := none
  paletteSubdir : Option String := none
  openpropsSubdir : Option String := none

/-- Open Props configuration (interface OpenPropsConfig). -/
structure OpenPropsConfig where
  baseUrl : String
  files : List String
deriving DecidableEq

/-- Partial OpenPropsConfig as a user override object. -/
structure PartialOpenPropsConfig where
  baseUrl : Option String := none
  files : Option (List String) := none

/-- Semantic token mappings (interface SemanticConfig); each category is a
record of short-name → raw-value-or-token-reference, modelled as an
association list. -/
structure SemanticConfig where
  space : List (String × String)
  radius : List (String × String)
  shadow : List (String × String)
  weight : List (String × String)
  leading : List (String × String)
  duration : List (String × String)
  ease : List (String × String)
  layer : List (String × String)
deriving DecidableEq

/-- Partial SemanticConfig: a user override object in which each category
key may be absent (present categories are whole objects, as produced by a
JavaScript object literal). -/
structure PartialSemanticConfig where
  space : Option (List (String × String)) := none
  radius : Option (List (String × String)) := none
  shadow : Option (List (String × String)) := none
  weight : Option (List (String × String)) := none
  leading : Option (List (String × String)) := none
  duration : Option (List (String × String)) := none
  ease : Option (List (String × String)) := none
  layer : Option (List (String × String)) := none

/-- Supported color output formats (type ColorFormat). -/
inductive ColorFormat where
  | oklch | hex | hsl | rgb
deriving DecidableEq, Repr

/-- Complete configuration (interface TokenConfig). -/
structure TokenConfig where
  format : ColorFormat
  prefixes : Prefixes
  output : OutputConfig
  openprops : OpenPropsConfig
  semantic : SemanticConfig
deriving DecidableEq

/-- Partial TokenConfig as the user override object given to mergeConfig. -/
structure PartialTokenConfig where
  format : Option ColorFormat := none
  prefixes : Option PartialPrefixes := none
  output : Option PartialOutputConfig := none
  openprops : Option PartialOpenPropsConfig := none
  semantic : Option PartialSemanticConfig := none

/-- DEFAULT_CONFIG (config module lines 60-147). -/
def DEFAULT_CONFIG : TokenConfig :=
  { format := ColorFormat.oklch
    prefixes := { primitives := "op", palette := "md", semantic := "ui" }
    output := { dir := "./tokens", paletteSubdir := "material",
                openpropsSubdir := "open-props" }
    openprops :=
      { baseUrl := "https://raw.githubusercontent.com/argyleink/open-props/main/src"
        files := ["fonts", "sizes", "shadows", "borders", "easings"] }
    semantic :=
      { space := [("xs", "size-2"), ("sm", "size-3"), ("md", "size-4"),
                  ("lg", "size-5"), ("xl", "size-6"), ("2xl", "size-7")]
        radius := [("none", "0"), ("sm", "radius-2"), ("md", "radius-3"),
                   ("lg", "radius-4"), ("full", "radius-round")]
        shadow := [("sm", "shadow-2"), ("md", "shadow-3"), ("lg", "shadow-4"),
                   ("xl", "shadow-5")]
        weight := [("light", "font-weight-3"), ("normal", "font-weight-4"),
                   ("medium", "font-weight-5"), ("semibold", "font-weight-6"),
                   ("bold", "font-weight-7")]
        leading := [("none", "1"), ("tight", "font-lineheight-1"),
                    ("snug", "font-lineheight-2"), ("normal", "font-lineheight-3"),
                    ("relaxed", "font-lineheight-4"), ("loose", "font-lineheight-5")]
        duration := [("instant", "0ms"), ("fast", "150ms"), ("normal", "300ms"),
                     ("slow", "500ms")]
        ease := [("linear", "ease-1"), ("default", "ease-2"), ("in", "ease-in-2"),
                 ("out", "ease-out-2"), ("in-out", "ease-in-out-2")]
        layer := [("base", "1"), ("raised", "10"), ("dropdown", "100"),
                  ("sticky", "500"), ("modal", "1000"), ("toast", "2000")] } }

/-- The spread `\x7b...DEFAULT_CONFIG.prefixes, ...userConfig.prefixes\x7d`. -/
def mergePrefixes (u : Option PartialPrefixes) : Prefixes :=
  match u with
  | none => DEFAULT_CONFIG.prefixes
  | some p =>
    { primitives := p.primitives.getD DEFAULT_CONFIG.prefixes.primitives
      palette := p.palette.getD DEFAULT_CONFIG.prefixes.palette
      semantic := p.semantic.getD DEFAULT_CONFIG.prefixes.semantic }

/-- The spread `\x7b...DEFAULT_CONFIG.output, ...userConfig.output\x7d`. -/
def mergeOutput (u : Option PartialOutputConfig) : OutputConfig :=
  match u with
  | none => DEFAULT_CONFIG.output
  | some p =>
    { dir := p.dir.getD DEFAULT_CONFIG.output.dir
      paletteSubdir := p.paletteSubdir.getD DEFAULT_CONFIG.output.paletteSubdir
      openpropsSubdir := p.openpropsSubdir.getD DEFAULT_CONFIG.output.openpropsSubdir }

/-- The spread `\x7b...DEFAULT_CONFIG.openprops, ...userConfig.openprops\x7d`. -/
def mergeOpenProps (u : Option PartialOpenPropsConfig) : OpenPropsConfig :=
  match u with
  | none => DEFAULT_CONFIG.openprops
  | some p =>
    { baseUrl := p.baseUrl.getD DEFAULT_CONFIG.openprops.baseUrl
      files := p.files.getD DEFAULT_CONFIG.openprops.files }

/-- The spread `\x7b...DEFAULT_CONFIG.semantic, ...userConfig.semantic\x7d`:
one spread at the level of the eight category keys, so a category the user
supplies replaces the default category object wholesale. -/
def mergeSemantic (u : Option PartialSemanticConfig) : SemanticConfig :=
  match u with
  | none => DEFAULT_CONFIG.semantic
  | some p =>
    { space := p.space.getD DEFAULT_CONFIG.semantic.space
      radius := p.radius.getD DEFAULT_CONFIG.semantic.radius
      shadow := p.shadow.getD DEFAULT_CONFIG.semantic.shadow
      weight := p.weight.getD DEFAULT_CONFIG.semantic.weight
      leading := p.leading.getD DEFAULT_CONFIG.semantic.leading
      duration := p.duration.getD DEFAULT_CONFIG.semantic.duration
      ease := p.ease.getD DEFAULT_CONFIG.semantic.ease
      layer := p.layer.getD DEFAULT_CONFIG.semantic.layer }

/-- mergeConfig (config module lines 152-163). -/
def mergeConfig (userConfig : PartialTokenConfig) : TokenConfig :=
  { format := userConfig.format.getD DEFAULT_CONFIG.format
    prefixes := mergePrefixes userConfig.prefixes
    output := mergeOutput userConfig.output
    openprops := mergeOpenProps userConfig.openprops
    semantic := mergeSemantic userConfig.semantic }

/-- The C4 scenario: a user override touching only semantic.space.xs. -/
def userOverridesSpaceXs : PartialTokenConfig :=
  { semantic := some { space := some [("xs", "size-1")] } }

/-! ## Orchestrator file effects (token generator module, generateTokens)

The file system is an abstract store: a history of (path, contents)
writes, read through the newest entry.  `generateTokensFS` performs
exactly the write sequence of generateTokens (lines 197-279 of the
orchestrator): palettes.css, one file per configured Open Props source,
semantic.css, index.css — all unconditional — and app.css only when the
existence check fails.  The rendered texts (which depend on the seed,
the fetched sources and the generation timestamp) are inputs here;
rendering is pure and the network is external. -/

/-- Abstract file-system state: newest write first. -/
abbrev FS := List (String × String)

/-- Current contents at a path. -/
def readFS (p : String) (fs : FS) : Option String := fs.lookup p

/-- writeFile: the new contents shadow any older entry. -/
def writeFS (p c : String) (fs : FS) : FS := (p, c) :: fs

/-- fileExists (orchestrator lines 284-291): stat succeeds. -/
def fileExistsFS (p : String) (fs : FS) : Bool := (readFS p fs).isSome

/-- The texts rendered during one run of generateTokens: palettes.css,
semantic.css, index.css, the app.css template, and one adapted text per
Open Props source name. -/
structure RenderedRun where
  palettesCSS : String
  semanticCSS : String
  indexCSS : String
  appCSS : String
  openPropsCSS : String → String

/-- node path.join modelled as string concatenation with a separator
(no path normalization; every call site below joins the same way). -/
def joinP (a b : String) : String := a ++ "/" ++ b

/-- generateTokens (orchestrator lines 178-279), write effects only, with
the default output layout (outputDir, "material", "open-props") and the
default Open Props file list. -/
def generateTokensFS (outputDir : String) (r : RenderedRun) (fs : FS) : FS :=
  let materialDir := joinP outputDir "material"
  let openPropsDir := joinP outputDir "open-props"
  let fs1 := writeFS (joinP materialDir "palettes.css") r.palettesCSS fs
  let fs2 := DEFAULT_CONFIG.openprops.files.foldl
    (fun acc name => writeFS (joinP openPropsDir (name ++ ".css")) (r.openPropsCSS name) acc) fs1
  let fs3 := writeFS (joinP outputDir "semantic.css") r.semanticCSS fs2
  let fs4 := writeFS (joinP outputDir "index.css") r.indexCSS fs3
  let appPath := joinP outputDir "app.css"
  if fileExistsFS appPath fs4 then fs4 else writeFS appPath r.appCSS fs4

/-! ## Color parsing and formatting (src/tokens/colors.ts with culori)

culori is the CSS color library behind parse/formatHex/oklch.  Its hex
parser accepts exactly a leading `#` followed by 3, 4, 6 or 8 hex digits
(CSS hex notation; a bare digit string is not a CSS color and parses to
undefined).  formatHex serializes the parsed sRGB coordinates back to
lowercase `#rrggbb`, dropping any alpha component. -/

/-- Hex digit test (case-insensitive). -/
def isHexDigitC (c : Char) : Bool :=
  ('0' ≤ c ∧ c ≤ '9') ∨ ('a' ≤ c ∧ c ≤ 'f') ∨ ('A' ≤ c ∧ c ≤ 'F')

/-- Value of a hex digit. -/
def hexDigitVal (c : Char) : Nat :=
  if '0' ≤ c ∧ c ≤ '9' then c.toNat - 48
  else if 'a' ≤ c ∧ c ≤ 'f' then c.toNat - 87
  else if 'A' ≤ c ∧ c ≤ 'F' then c.toNat - 55
  else 0

/-- Lowercase hex digit for a value below 16. -/
def lowerHexDigit (n : Nat) : Char := "0123456789abcdef".data.getD n '0'

/-- Uppercase hex digit for a value below 16. -/
def upperHexDigit (n : Nat) : Char := "0123456789ABCDEF".data.getD n '0'

/-- culori parse on hex strings: `#` plus 3/4/6/8 hex digits, yielding the
sRGB byte coordinates (alpha digits are parsed but dropped by the
conversions used in this repository). -/
def parseHex (s : String) : Option (Nat × Nat × Nat) :=
  match s.data with
  | '#' :: rest =>
    if rest.all isHexDigitC then
      match rest with
      | [r, g, b] =>
        some (17 * hexDigitVal r, 17 * hexDigitVal g, 17 * hexDigitVal b)
      | [r, g, b, _a] =>
        some (17 * hexDigitVal r, 17 * hexDigitVal g, 17 * hexDigitVal b)
      | [r1, r2, g1, g2, b1, b2] =>
        some (16 * hexDigitVal r1 + hexDigitVal r2,
              16 * hexDigitVal g1 + hexDigitVal g2,
              16 * hexDigitVal b1 + hexDigitVal b2)
      | [r1, r2, g1, g2, b1, b2, _a1, _a2] =>
        some (16 * hexDigitVal r1 + hexDigitVal r2,
              16 * hexDigitVal g1 + hexDigitVal g2,
              16 * hexDigitVal b1 + hexDigitVal b2)
      | _ => none
    else none
  | _ => none

/-- Two lowercase hex digits of a byte. -/
def lowerHex2 (n : Nat) : List Char := [lowerHexDigit (n / 16), lowerHexDigit (n % 16)]

/-- culori formatHex: undefined on unparseable input, lowercase `#rrggbb`
otherwise. -/
def formatHex (s : String) : Option String :=
  (parseHex s).map (fun rgb =>
    String.mk ('#' :: (lowerHex2 rgb.1 ++ lowerHex2 rgb.2.1 ++ lowerHex2 rgb.2.2)))

/-- normalizeHex (src/tokens/colors.ts lines 60-66): formatHex then
toUpperCase; throws on unparseable input. -/
def normalizeHex (hex : String) : Except String String :=
  match formatHex hex with
  | none => Except.error ("Invalid hex color: " ++ hex)
  | some formatted => Except.ok (asciiUpper formatted)

/-- The canonical form of a color: `#RRGGBB` with uppercase hex digits. -/
def canonHex (r g b : Nat) : String :=
  String.mk ['#', upperHexDigit (r / 16), upperHexDigit (r % 16),
             upperHexDigit (g / 16), upperHexDigit (g % 16),
             upperHexDigit (b / 16), upperHexDigit (b % 16)]

/-! ### OKLCH conversion (src/tokens/colors.ts, hexToOklch)

culori's sRGB → OKLab conversion: per-channel linearization, a 3×3 matrix
into cone space, cube roots, and a second matrix.  The two transcendental
ingredients — the 2.4-power of the transfer curve, the cube root — and the
square root and hue angle of the polar step are irrational, so they enter
the model as function parameters (`gammaPow`, `cbrtQ`, `sqrtQ`,
`atan2degQ`); the matrices and thresholds are culori's exact decimal
constants.  The achromatic guard `c < 0.001` and the toFixed/Math.round
formatting are the repository's own code and are embedded exactly. -/

/-- culori convertRgbToLrgb on a channel value in [0,1]: below the linear
threshold divide by 12.92, otherwise apply the 2.4 power to
(c + 0.055) / 1.055 (the power function is the `gammaPow` parameter). -/
def linChannel (gammaPow : ℚ → ℚ) (c : ℚ) : ℚ :=
  if c ≤ 0.04045 then c / 12.92 else gammaPow ((c + 0.055) / 1.055)

/-- culori convertLrgbToOklab for byte coordinates r g b: returns
(l, a, b) with culori's exact matrix constants. -/
def oklabOf (gammaPow cbrtQ : ℚ → ℚ) (r g b : Nat) : ℚ × ℚ × ℚ :=
  let rq := linChannel gammaPow ((r : ℚ) / 255)
  let gq := linChannel gammaPow ((g : ℚ) / 255)
  let bq := linChannel gammaPow ((b : ℚ) / 255)
  let lc := cbrtQ (0.41222147079999993 * rq + 0.5363325363 * gq + 0.0514459929 * bq)
  let mc := cbrtQ (0.2119034981999999 * rq + 0.6806995450999999 * gq + 0.1073969566 * bq)
  let sc := cbrtQ (0.08830246189999998 * rq + 0.2817188376 * gq + 0.6299787005000002 * bq)
  (0.2104542553 * lc + 0.793617785 * mc - 0.0040720468 * sc,
   1.9779984951 * lc - 2.428592205 * mc + 0.4505937099 * sc,
   0.0259040371 * lc + 0.7827717662 * mc - 0.808675766 * sc)

/-- JS Math.round: round half toward positive infinity. -/
def jsRound (q : ℚ) : Int := Int.floor (q + 1/2)

/-- Left-pad a digit list with zeros to a given width. -/
def padZeros (width : Nat) (ds : List Char) : List Char :=
  List.replicate (width - ds.length) '0' ++ ds

/-- JS Number.prototype.toFixed(d) for the nonnegative values formatted
here: round half away from zero at d decimals, print with exactly d
decimal digits. -/
def toFixedQ (d : Nat) (q : ℚ) : String :=
  let n : Nat := (Int.floor (|q| * (10 : ℚ) ^ d + 1/2)).toNat
  let intPart := Nat.repr (n / 10 ^ d)
  let fracPart := String.mk (padZeros d (Nat.repr (n % 10 ^ d)).data)
  (if q < 0 ∧ n ≠ 0 then "-" else "") ++
    (if d = 0 then intPart else intPart ++ "." ++ fracPart)

/-- The string built by hexToOklch in the achromatic branch. -/
def oklchAchromatic (l : ℚ) : String := "oklch(" ++ toFixedQ 2 l ++ " 0 0)"

/-- The string built by hexToOklch in the chromatic branch. -/
def oklchChromatic (l c h : ℚ) : String :=
  "oklch(" ++ toFixedQ 2 l ++ " " ++ toFixedQ 3 c ++ " " ++ toString (jsRound h) ++ ")"

/-- hexToOklch (src/tokens/colors.ts lines 13-31): parse, convert to OKLCH
(culori leaves the hue undefined when the chroma is zero, and the source
reads it back with `?? 0`), then format: L at 2 decimals, C at 3 decimals,
H at the nearest integer, with the `c < 0.001` achromatic guard emitting
`0 0` instead. -/
def hexToOklchM (gammaPow cbrtQ sqrtQ : ℚ → ℚ) (atan2degQ : ℚ → ℚ → ℚ)
    (hex : String) : Except String String :=
  match parseHex hex with
  | none => Except.error ("Invalid hex color: " ++ hex)
  | some rgb =>
    let lab := oklabOf gammaPow cbrtQ rgb.1 rgb.2.1 rgb.2.2
    let l := lab.1
    let a := lab.2.1
    let bb := lab.2.2
    let c := sqrtQ (a * a + bb * bb)
    let h := if c = 0 then 0 else atan2degQ bb a
    if c < 0.001 then Except.ok (oklchAchromatic l)
    else Except.ok (oklchChromatic l c h)

/-! ## Third-party CSS adaptation (src/tokens/openprops.ts)

The JavaScript regular-expression rewrites are compiled to explicit
left-to-right scanners over the character list, reproducing the regex
engine's leftmost-match, greedy-class behaviour (the character classes
involved are disjoint from what follows them, so no further backtracking
arises).  `\s` is modelled by the ASCII whitespace characters. -/

/-- JS `\s` on the ASCII range (space, tab, newline, carriage return,
vertical tab, form feed). -/
def isJsWs (c : Char) : Bool :=
  c = ' ' ∨ c = '\t' ∨ c = '\n' ∨ c = '\r' ∨ c = '\x0b' ∨ c = '\x0c'

/-- Drop a literal pattern from the front, or fail. -/
def stripPre (pat l : List Char) : Option (List Char) :=
  if pat.isPrefixOf l then some (l.drop pat.length) else none

/-- Character class `[a-zA-Z]` (custom-property name start). -/
def isNameStart (c : Char) : Bool := c.isAlpha

/-- Character class `[a-zA-Z0-9-]` (custom-property name rest). -/
def isNameChar (c : Char) : Bool := c.isAlphanum ∨ c = '-'

/-- Attempt the suffix `--([a-zA-Z][a-zA-Z0-9-]*)\s*:` of the
prefixOpenPropsCSS pattern at the head of `l`; returns the captured name
and the rest after the colon. -/
def matchPropDef (l : List Char) : Option (List Char × List Char) :=
  match l with
  | '-' :: '-' :: c :: rest =>
    if isNameStart c then
      let nm := rest.takeWhile isNameChar
      let r1 := (rest.drop nm.length).dropWhile isJsWs
      match r1 with
      | ':' :: r2 => some (c :: nm, r2)
      | _ => none
    else none
  | _ => none

/-- The global replace of prefixOpenPropsCSS: pattern
`(^|\s|;)(--)(([a-zA-Z][a-zA-Z0-9-]*))\s*:` with the `m` flag, replaced by
the first capture, then `--`, the configured primitives prefix, a hyphen,
the name and a colon.  `lineStart` tracks whether `^` matches at the
current position (start of input or right after a newline). -/
def prefixScan (pfx : List Char) : Nat → Bool → List Char → List Char
  | 0, _, l => l
  | _ + 1, _, [] => []
  | fuel + 1, lineStart, c :: rest =>
    match (if lineStart then matchPropDef (c :: rest) else none) with
    | some (nm, after) =>
      '-' :: '-' :: (pfx ++ '-' :: (nm ++ ':' :: prefixScan pfx fuel false after))
    | none =>
      if isJsWs c ∨ c = ';' then
        match matchPropDef rest with
        | some (nm, after) =>
          c :: '-' :: '-' :: (pfx ++ '-' :: (nm ++ ':' :: prefixScan pfx fuel false after))
        | none => c :: prefixScan pfx fuel (c = '\n') rest
      else c :: prefixScan pfx fuel (c = '\n') rest

/-- prefixOpenPropsCSS (src/tokens/openprops.ts lines 131-138). -/
def prefixOpenPropsCSS (css pfx : String) : String :=
  String.mk (prefixScan pfx.data (css.data.length + 1) true css.data)

/-- A custom-property name in the class the prefix pattern captures:
nonempty, a letter first, then letters, digits or hyphens. -/
def wfNameL (nm : List Char) : Prop :=
  match nm with
  | [] => False
  | c :: cs => isNameStart c = true ∧ ∀ x ∈ cs, isNameChar x = true

/-- wfNameL on strings. -/
def wfName (nm : String) : Prop := wfNameL nm.data

/-- Quote characters accepted by the `@import` pattern. -/
def isQuoteC (c : Char) : Bool := c = '\'' ∨ c = '"'

/-- Attempt `@import\s+['"][^'"]+['"]\s*;?\s*\n?` at the head of `l`;
returns the rest after the match. -/
def matchImport (l : List Char) : Option (List Char) :=
  match stripPre "@import".data l with
  | none => none
  | some rest =>
    let ws1 := rest.takeWhile isJsWs
    if ws1 = [] then none
    else
      match rest.drop ws1.length with
      | q1 :: r2 =>
        if isQuoteC q1 then
          let body := r2.takeWhile (fun c => ¬ isQuoteC c)
          if body = [] then none
          else
            match r2.drop body.length with
            | q2 :: r3 =>
              if isQuoteC q2 then
                let r4 := r3.dropWhile isJsWs
                let r5 := match r4 with | ';' :: t => t | _ => r4
                let r6 := r5.dropWhile isJsWs
                let r7 := match r6 with | '\n' :: t => t | _ => r6
                some r7
              else none
            | [] => none
        else none
      | [] => none

/-- Global removal of `@import` statements (transformOpenPropsCSS line 63). -/
def stripImportsScan : Nat → List Char → List Char
  | 0, l => l
  | _ + 1, [] => []
  | fuel + 1, c :: rest =>
    match matchImport (c :: rest) with
    | some after => stripImportsScan fuel after
    | none => c :: stripImportsScan fuel rest

/-- Global literal replacement (used for `:where(html)` → `:root`,
transformOpenPropsCSS line 66). -/
def replaceLitScan (pat repl : List Char) : Nat → List Char → List Char
  | 0, l => l
  | _ + 1, [] => []
  | fuel + 1, c :: rest =>
    if pat ≠ [] ∧ pat.isPrefixOf (c :: rest) then
      repl ++ replaceLitScan pat repl fuel ((c :: rest).drop pat.length)
    else c :: replaceLitScan pat repl fuel rest

/-- Attempt `@media\s*\(--OSdark\)\s*\{` at the head of `l`. -/
def matchOsDark (l : List Char) : Option (List Char) :=
  match stripPre "@media".data l with
  | none => none
  | some rest =>
    match stripPre "(--OSdark)".data (rest.dropWhile isJsWs) with
    | none => none
    | some r1 =>
      match r1.dropWhile isJsWs with
      | '\x7b' :: t => some t
      | _ => none

/-- Global rewrite of the `--OSdark` media idiom
(transformOpenPropsCSS line 69). -/
def osDarkScan : Nat → List Char → List Char
  | 0, l => l
  | _ + 1, [] => []
  | fuel + 1, c :: rest =>
    match matchOsDark (c :: rest) with
    | some after =>
      "@media (prefers-color-scheme: dark) \x7b".data ++ osDarkScan fuel after
    | none => c :: osDarkScan fuel rest

/-- Character class `[\d\s%]` of the shadow-color value pattern. -/
def isShadowValC (c : Char) : Bool := c.isDigit ∨ isJsWs c ∨ c = '%'

/-- Attempt `\s*[\d\s%]+;` right after the literal `--shadow-color:`;
returns the `\s*` part captured into group 1 and the rest after the
semicolon.  When the whole run is whitespace the regex engine backtracks
one character so that `[\d\s%]+` is nonempty. -/
def matchShadowVal (l : List Char) : Option (List Char × List Char) :=
  let w := l.takeWhile isJsWs
  let r := l.drop w.length
  let v := r.takeWhile isShadowValC
  if v ≠ [] then
    match r.drop v.length with
    | ';' :: rest => some (w, rest)
    | _ => none
  else if w ≠ [] then
    match r with
    | ';' :: rest => some (w.dropLast, rest)
    | _ => none
  else none

/-- Global replace of `(--shadow-color:\s*)[\d\s%]+;` by the captured
group followed by a tint and a semicolon (injectShadowColor lines 91-94
and 105-108). -/
def shadowColorScan (tint : List Char) : Nat → List Char → List Char
  | 0, l => l
  | _ + 1, [] => []
  | fuel + 1, c :: rest =>
    match stripPre "--shadow-color:".data (c :: rest) with
    | some r1 =>
      match matchShadowVal r1 with
      | some (w, after) =>
        "--shadow-color:".data ++ w ++ tint ++ ';' :: shadowColorScan tint fuel after
      | none => c :: shadowColorScan tint fuel rest
    | none => c :: shadowColorScan tint fuel rest

/-- Attempt the dark-section pattern
`@media\s*\(prefers-color-scheme:\s*dark\)\s*\{\s*:(?:root|where\(html\))\s*\{([^}]+)\}\s*\}`
at the head of `l`; returns the capture and the rest after the match. -/
def matchDarkSection (l : List Char) : Option (List Char × List Char) :=
  match stripPre "@media".data l with
  | none => none
  | some rest =>
    match stripPre "(prefers-color-scheme:".data (rest.dropWhile isJsWs) with
    | none => none
    | some r1 =>
      match stripPre "dark)".data (r1.dropWhile isJsWs) with
      | none => none
      | some r2 =>
        match r2.dropWhile isJsWs with
        | '\x7b' :: r3 =>
          match (r3.dropWhile isJsWs) with
          | ':' :: r4 =>
            match (match stripPre "root".data r4 with
                   | some t => some t
                   | none => stripPre "where(html)".data r4) with
            | none => none
            | some r5 =>
              match r5.dropWhile isJsWs with
              | '\x7b' :: r6 =>
                let content := r6.takeWhile (fun c => c ≠ '\x7d')
                if content = [] then none
                else
                  match r6.drop content.length with
                  | '\x7d' :: r7 =>
                    match r7.dropWhile isJsWs with
                    | '\x7d' :: r8 => some (content, r8)
                    | _ => none
                  | _ => none
              | _ => none
          | _ => none
        | _ => none

/-- First occurrence of the dark-section pattern: (before, capture, after). -/
def findDarkSection : Nat → List Char → Option (List Char × List Char × List Char)
  | 0, _ => none
  | _ + 1, [] => none
  | fuel + 1, c :: rest =>
    match matchDarkSection (c :: rest) with
    | some (content, after) => some ([], content, after)
    | none =>
      match findDarkSection fuel rest with
      | some (before, content, after) => some (c :: before, content, after)
      | none => none

/-- injectShadowColor (src/tokens/openprops.ts lines 82-125). -/
def injectShadowColor (css : String) (seedHue : ℚ) : String :=
  let hue := jsRound seedHue
  let lightTint := (toString hue ++ " 10% 15%").data
  let darkTint := (toString hue ++ " 30% 5%").data
  let l1 := shadowColorScan lightTint (css.data.length + 1) css.data
  match findDarkSection (l1.length + 1) l1 with
  | none => String.mk l1
  | some (before, content, after) =>
    let darkContent := shadowColorScan darkTint (content.length + 1) content
    let replacement :=
      "[data-theme=\"dark\"] \x7b".data ++ darkContent ++
      ("\x7d\n\n@media (prefers-color-scheme: dark) \x7b\n" ++
       "  :root:not([data-theme=\"light\"]) \x7b").data ++ darkContent ++
      "\x7d\n\x7d".data
    String.mk (before ++ replacement ++ after)

/-- JS String.prototype.trim on the ASCII range. -/
def trimAscii (s : String) : String :=
  String.mk (((s.data.dropWhile isJsWs).reverse.dropWhile isJsWs).reverse)

/-- transformOpenPropsCSS (src/tokens/openprops.ts lines 57-77). -/
def transformOpenPropsCSS (css fileName : String) (seedHue : ℚ) : String :=
  let c1 := stripImportsScan (css.data.length + 1) css.data
  let c2 := replaceLitScan ":where(html)".data ":root".data (c1.length + 1) c1
  let c3 := String.mk (osDarkScan (c2.length + 1) c2)
  let c4 := if fileName = "shadows" then injectShadowColor c3 seedHue else c3
  trimAscii c4

/-! ## Semantic renderer color loop (src/tokens/openprops.ts, generateSemanticCSS)

The color-token section of generateSemanticCSS: the fixed COLOR_ROLE_MAP,
the falsy guard skipping a role when the light or dark value is absent
(or empty), the group comment emitted when the group of an emitted role
changes, and one `light-dark(...)` declaration per emitted role.  The
color formatting `formatColor(value, format)` enters as the function
argument `fmt` (for `format: "hex"` it is `normalizeHex` above). -/

/-- The keys of SchemeColors used by COLOR_ROLE_MAP. -/
inductive SchemeKey where
  | primary | onPrimary | primaryContainer | onPrimaryContainer
  | secondary | onSecondary | secondaryContainer | onSecondaryContainer
  | tertiary | onTertiary | tertiaryContainer | onTertiaryContainer
  | surface | onSurface | surfaceVariant | onSurfaceVariant
  | surfaceContainer | surfaceContainerLow | surfaceContainerLowest
  | surfaceContainerHigh | surfaceContainerHighest | surfaceDim | surfaceBright
  | background | onBackground
  | error | onError | errorContainer | onErrorContainer
  | outline | outlineVariant
  | inverseSurface | inverseOnSurface | inversePrimary
  | scrim | shadow | surfaceTint
deriving DecidableEq, Repr

/-- One entry of COLOR_ROLE_MAP. -/
structure RoleEntry where
  schemeKey : SchemeKey
  semanticName : String
  group : String
deriving DecidableEq

/-- COLOR_ROLE_MAP (src/tokens/openprops.ts lines 205-260), in declared
order. -/
def COLOR_ROLE_MAP : List RoleEntry :=
  [⟨.primary, "primary", "Primary"⟩,
   ⟨.onPrimary, "primary-on", "Primary"⟩,
   ⟨.primaryContainer, "primary-container", "Primary"⟩,
   ⟨.onPrimaryContainer, "primary-container-on", "Primary"⟩,
   ⟨.secondary, "secondary", "Secondary"⟩,
   ⟨.onSecondary, "secondary-on", "Secondary"⟩,
   ⟨.secondaryContainer, "secondary-container", "Secondary"⟩,
   ⟨.onSecondaryContainer, "secondary-container-on", "Secondary"⟩,
   ⟨.tertiary, "tertiary", "Tertiary"⟩,
   ⟨.onTertiary, "tertiary-on", "Tertiary"⟩,
   ⟨.tertiaryContainer, "tertiary-container", "Tertiary"⟩,
   ⟨.onTertiaryContainer, "tertiary-container-on", "Tertiary"⟩,
   ⟨.surface, "surface", "Surface"⟩,
   ⟨.onSurface, "surface-on", "Surface"⟩,
   ⟨.surfaceVariant, "surface-variant", "Surface"⟩,
   ⟨.onSurfaceVariant, "surface-variant-on", "Surface"⟩,
   ⟨.surfaceContainer, "surface-container", "Surface"⟩,
   ⟨.surfaceContainerLow, "surface-container-low", "Surface"⟩,
   ⟨.surfaceContainerLowest, "surface-container-lowest", "Surface"⟩,
   ⟨.surfaceContainerHigh, "surface-container-high", "Surface"⟩,
   ⟨.surfaceContainerHighest, "surface-container-highest", "Surface"⟩,
   ⟨.surfaceDim, "surface-dim", "Surface"⟩,
   ⟨.surfaceBright, "surface-bright", "Surface"⟩,
   ⟨.background, "background", "Background"⟩,
   ⟨.onBackground, "background-on", "Background"⟩,
   ⟨.error, "error", "Error"⟩,
   ⟨.onError, "error-on", "Error"⟩,
   ⟨.errorContainer, "error-container", "Error"⟩,
   ⟨.onErrorContainer, "error-container-on", "Error"⟩,
   ⟨.outline, "outline", "Outline"⟩,
   ⟨.outlineVariant, "outline-variant", "Outline"⟩,
   ⟨.inverseSurface, "inverse-surface", "Inverse"⟩,
   ⟨.inverseOnSurface, "inverse-surface-on", "Inverse"⟩,
   ⟨.inversePrimary, "inverse-primary", "Inverse"⟩,
   ⟨.scrim, "scrim", "Utility"⟩,
   ⟨.shadow, "shadow-color", "Utility"⟩,
   ⟨.surfaceTint, "surface-tint", "Utility"⟩]

/-- One emitted color declaration line. -/
def roleLine (semPfx lf df name : String) : String :=
  "    --" ++ semPfx ++ "-color-" ++ name ++ ": light-dark(" ++ lf ++ ", " ++ df ++ ");"

/-- A group comment line. -/
def groupHeader (g : String) : String := "    /* " ++ g ++ " */"

/-- The group-change lines pushed before an emitted role: a blank line
between groups, then the comment. -/
def specHeaders (g currentGroup : String) : List String :=
  if g ≠ currentGroup then
    (if currentGroup ≠ "" then ["", groupHeader g] else [groupHeader g])
  else []

/-- The color-token loop of generateSemanticCSS (src/tokens/openprops.ts
lines 328-349): scheme values are read as possibly-absent strings, a role
whose light or dark value is falsy (absent or empty) is skipped, and
`currentGroup` advances only when a role is emitted. -/
def colorRoleLoop (fmt : String → Except String String) (semPfx : String)
    (light dark : SchemeKey → Option String) :
    List RoleEntry → String → Except String (List String)
  | [], _ => Except.ok []
  | role :: roles, currentGroup =>
    match light role.schemeKey, dark role.schemeKey with
    | some lv, some dv =>
      if lv = "" ∨ dv = "" then colorRoleLoop fmt semPfx light dark roles currentGroup
      else
        match fmt lv with
        | Except.error e => Except.error e
        | Except.ok lf =>
          match fmt dv with
          | Except.error e => Except.error e
          | Except.ok df =>
            match colorRoleLoop fmt semPfx light dark roles role.group with
            | Except.error e => Except.error e
            | Except.ok rest =>
              Except.ok (specHeaders role.group currentGroup ++
                roleLine semPfx lf df role.semanticName :: rest)
    | _, _ => colorRoleLoop fmt semPfx light dark roles currentGroup

/-- Specification view: the roles whose light and dark values are both
present and truthy, with those values, in declared order. -/
def emittedPairs (light dark : SchemeKey → Option String)
    (roles : List RoleEntry) : List (RoleEntry × String × String) :=
  roles.filterMap (fun r =>
    match light r.schemeKey, dark r.schemeKey with
    | some lv, some dv => if lv = "" ∨ dv = "" then none else some (r, lv, dv)
    | _, _ => none)

/-- Specification view: render the emitted roles in order, inserting the
group comment exactly when the group of the previously emitted role
differs. -/
def specRender (fmt : String → Except String String) (semPfx : String) :
    List (RoleEntry × String × String) → String → Except String (List String)
  | [], _ => Except.ok []
  | (r, lv, dv) :: rs, currentGroup =>
    match fmt lv with
    | Except.error e => Except.error e
    | Except.ok lf =>
      match fmt dv with
      | Except.error e => Except.error e
      | Except.ok df =>
        match specRender fmt semPfx rs r.group with
        | Except.error e => Except.error e
        | Except.ok rest =>
          Except.ok (specHeaders r.group currentGroup ++
            roleLine semPfx lf df r.semanticName :: rest)

/-! ## Concrete fixtures used by the theorems below -/

/-- A trivial engine instance (used to instantiate theorems about
generateTheme at concrete arguments). -/
def trivialEngine : Engine Unit Unit Unit :=
  { argbFromHex := fun _ => 0
    hctFromInt := fun _ => ()
    schemeColors := fun _ _ _ _ => ()
    palettes := fun _ _ => () }

/-- A shadows source text in the shape of Open Props props.shadows.css:
an import, a `:where(html)` root block with the default shadow-color, a
shadow value referencing `var(--shadow-color)`, and an `(--OSdark)` dark
block. -/
def shadowsFixture : String :=
  "@import \"props.media.css\";\n\n" ++
  ":where(html) \x7b\n" ++
  "  --shadow-color: 220 3% 15%;\n" ++
  "  --shadow-strength: 1%;\n" ++
  "  --shadow-2: 0 3px 5px -2px hsl(var(--shadow-color) / calc(var(--shadow-strength) + 3%));\n" ++
  "\x7d\n\n" ++
  "@media (--OSdark) \x7b\n" ++
  "  :where(html) \x7b\n" ++
  "    --shadow-color: 220 40% 2%;\n" ++
  "    --shadow-strength: 25%;\n" ++
  "  \x7d\n" ++
  "\x7d\n"

/-- The dark-block declarations after the dark tint is injected for a
rounded seed hue of 266. -/
def shadowsDarkDecls : String :=
  "\n    --shadow-color: 266 30% 5%;\n    --shadow-strength: 25%;\n  "

/-- The expected adapter output for `shadowsFixture` at seed hue 265.7:
the root block carries the light tint `266 10% 15%`, the
`var(--shadow-color)` reference is untouched, and the dark declarations
with the dark tint `266 30% 5%` appear both under the
`[data-theme="dark"]` selector and under the `prefers-color-scheme: dark`
media query. -/
def shadowsExpected : String :=
  ":root \x7b\n" ++
  "  --shadow-color: 266 10% 15%;\n" ++
  "  --shadow-strength: 1%;\n" ++
  "  --shadow-2: 0 3px 5px -2px hsl(var(--shadow-color) / calc(var(--shadow-strength) + 3%));\n" ++
  "\x7d\n\n" ++
  "[data-theme=\"dark\"] \x7b" ++ shadowsDarkDecls ++ "\x7d\n\n" ++
  "@media (prefers-color-scheme: dark) \x7b\n" ++
  "  :root:not([data-theme=\"light\"]) \x7b" ++ shadowsDarkDecls ++ "\x7d\n\x7d"

/-- The partial semantic override of the C4 scenario. -/
def psSpaceXs : PartialSemanticConfig := { space := some [("xs", "size-1")] }

/-! # Theorems -/

/-- Left cancellation for string append. -/
theorem strAppend_left_cancel {s a b : String} (h : s ++ a = s ++ b) : a = b := by
  apply String.ext
  have hd := congrArg String.data h
  simp only [String.data_append] at hd
  exact List.append_cancel_left hd

/-- Appending different suffixes to one string gives different strings. -/
theorem strAppend_ne (s : String) {a b : String} (h : a ≠ b) : s ++ a ≠ s ++ b :=
  fun hc => h (strAppend_left_cancel hc)

/-- C8: for a third-party source name outside the known file-name map,
fetchOpenProps throws the unknown-file error from the name lookup, and
the request trace is empty: no network request is ever initiated for
that name. -/
theorem fetchOpenProps_unknown_no_fetch (baseUrl fileName : String)
    (h : OPENPROPS_SOURCE_FILES.lookup fileName = none) :
    fetchOpenPropsTrace baseUrl fileName =
      (Except.error ("Unknown Open Props file: " ++ fileName), []) := by
  simp [fetchOpenPropsTrace, h]

/-- Witness for fetchOpenProps_unknown_no_fetch at the name
"nonexistent". -/
theorem fetchOpenProps_unknown_no_fetch_witness :
    OPENPROPS_SOURCE_FILES.lookup "nonexistent" = none ∧
    fetchOpenPropsTrace "https://example.invalid" "nonexistent" =
      (Except.error "Unknown Open Props file: nonexistent", []) :=
  ⟨by decide, fetchOpenProps_unknown_no_fetch "https://example.invalid" "nonexistent" (by decide)⟩

/-- C9: generateTheme sets coreColors.primary to exactly the theme's seed
field, the seed field is the normalized (`#`-prefixed, uppercased) input
seed, and coreColors is independent of the color engine, the timestamp
and the variant (it is never engine-derived). -/
theorem generateTheme_seed_coreColors {H σ π : Type} (e₁ e₂ : Engine H σ π)
    (now₁ now₂ seedHex : String) (v₁ v₂ : SchemeVariant) :
    (generateTheme e₁ now₁ seedHex v₁).coreColors.primary =
      (generateTheme e₁ now₁ seedHex v₁).seed ∧
    (generateTheme e₁ now₁ seedHex v₁).seed = normalizeSeed seedHex ∧
    (generateTheme e₁ now₁ seedHex v₁).coreColors =
      (generateTheme e₂ now₂ seedHex v₂).coreColors ∧
    (generateTheme e₁ now₁ "769cdf" v₁).seed = "#769CDF" ∧
    (generateTheme e₁ now₁ "#769cdf" v₁).seed = "#769CDF" :=
  ⟨rfl, rfl, rfl, rfl, rfl⟩

/-- C10: for a fixed seed, variant and engine, two calls of generateTheme
agree on schemes, palettes, seed, coreColors and extendedColors; the
description embeds the call-time timestamp, so it (and hence the whole
theme object) differs exactly when the timestamps differ. -/
theorem generateTheme_determinism_mod_timestamp {H σ π : Type}
    (e : Engine H σ π) (seedHex : String) (v : SchemeVariant) (t₁ t₂ : String) :
    (generateTheme e t₁ seedHex v).schemes = (generateTheme e t₂ seedHex v).schemes ∧
    (generateTheme e t₁ seedHex v).palettes = (generateTheme e t₂ seedHex v).palettes ∧
    (generateTheme e t₁ seedHex v).seed = (generateTheme e t₂ seedHex v).seed ∧
    (generateTheme e t₁ seedHex v).coreColors = (generateTheme e t₂ seedHex v).coreColors ∧
    (generateTheme e t₁ seedHex v).extendedColors = (generateTheme e t₂ seedHex v).extendedColors ∧
    ((generateTheme e t₁ seedHex v).description = (generateTheme e t₂ seedHex v).description ↔
      t₁ = t₂) ∧
    (t₁ ≠ t₂ → generateTheme e t₁ seedHex v ≠ generateTheme e t₂ seedHex v) := by
  refine ⟨rfl, rfl, rfl, rfl, rfl, ?_, ?_⟩
  · constructor
    · intro h
      exact strAppend_left_cancel (s := "TYPE: CUSTOM\nMaterial Theme Builder export ") h
    · intro h
      simp [generateTheme, h]
  · intro hne hc
    exact hne (strAppend_left_cancel
      (s := "TYPE: CUSTOM\nMaterial Theme Builder export ") (congrArg MaterialTheme.description hc))

/-- Witness for generateTheme_determinism_mod_timestamp: two distinct
timestamps give theme objects that differ (while the color-bearing fields
agree). -/
theorem generateTheme_determinism_witness :
    ("2024-01-01 00:00:00" : String) ≠ "2024-01-01 00:00:01" ∧
    generateTheme trivialEngine "2024-01-01 00:00:00" "#769CDF" SchemeVariant.tonalSpot ≠
      generateTheme trivialEngine "2024-01-01 00:00:01" "#769CDF" SchemeVariant.tonalSpot :=
  ⟨by decide,
   (generateTheme_determinism_mod_timestamp trivialEngine "#769CDF" SchemeVariant.tonalSpot
      "2024-01-01 00:00:00" "2024-01-01 00:00:01").2.2.2.2.2.2 (by decide)⟩

/-- C4 counterexample: overriding only semantic.space.xs loses the default
entry semantic.space.sm (the default maps it to size-3), because mergeConfig
spreads the semantic section only one level deep and the user-supplied
space category replaces the default category object wholesale. -/
theorem mergeConfig_space_sm_lost :
    (mergeConfig userOverridesSpaceXs).semantic.space.lookup "sm" = none ∧
    DEFAULT_CONFIG.semantic.space.lookup "sm" = some "size-3" := by
  constructor
  · rfl
  · rfl

/-- C4 amended: mergeConfig merges one top-level section at a time - a
semantic category object the user does not mention keeps its full
default, while a category the user does mention replaces the default
category object entirely (so unmentioned entries inside it, such as
space.sm, are dropped rather than preserved). -/
theorem mergeConfig_section_level_merge :
    (∀ ps : PartialSemanticConfig, ps.radius = none →
      (mergeConfig { semantic := some ps }).semantic.radius =
        DEFAULT_CONFIG.semantic.radius) ∧
    (∀ ps : PartialSemanticConfig, ∀ sp, ps.space = some sp →
      (mergeConfig { semantic := some ps }).semantic.space = sp) ∧
    (mergeConfig userOverridesSpaceXs).semantic.radius = DEFAULT_CONFIG.semantic.radius ∧
    (mergeConfig userOverridesSpaceXs).semantic.space = [("xs", "size-1")] ∧
    (mergeConfig { format := none, prefixes := none, output := none,
                   openprops := none, semantic := none }).semantic =
      DEFAULT_CONFIG.semantic := by
  refine ⟨?_, ?_, rfl, rfl, rfl⟩
  · intro ps h
    simp [mergeConfig, mergeSemantic, h]
  · intro ps sp h
    simp [mergeConfig, mergeSemantic, h]

/-- Witness for mergeConfig_section_level_merge at the C4 scenario
override. -/
theorem mergeConfig_section_level_merge_witness :
    psSpaceXs.radius = none ∧ psSpaceXs.space = some [("xs", "size-1")] ∧
    (mergeConfig { semantic := some psSpaceXs }).semantic.radius =
      DEFAULT_CONFIG.semantic.radius ∧
    (mergeConfig { semantic := some psSpaceXs }).semantic.space = [("xs", "size-1")] :=
  ⟨rfl, rfl, mergeConfig_section_level_merge.1 psSpaceXs rfl,
   mergeConfig_section_level_merge.2.1 psSpaceXs [("xs", "size-1")] rfl⟩

/-- C1 counterexample: in `:root\x7b--a: 1px;\x7d` the declaration `--a:`
stands at the top level of the rule block, but it follows the opening
brace with no whitespace, so the pattern `(^|\s|;)--name:` does not match
it: prefixOpenPropsCSS returns the text unchanged instead of rewriting
the definition to `--op-a:`. -/
theorem prefixOpenPropsCSS_brace_counterexample :
    prefixOpenPropsCSS ":root\x7b--a: 1px;\x7d" "op" = ":root\x7b--a: 1px;\x7d" ∧
    prefixOpenPropsCSS ":root\x7b--a: 1px;\x7d" "op" ≠ ":root\x7b--op-a: 1px;\x7d" := by
  constructor
  · rfl
  · decide

/-- The scanner yields nothing on empty input, at any fuel. -/
theorem scan_nil (pfx : List Char) (fuel : Nat) (ls : Bool) :
    prefixScan pfx fuel ls [] = [] := by
  cases fuel <;> rfl

/-- No property definition matches at the end of input. -/
theorem matchPropDef_nil : matchPropDef [] = none := rfl

/-- No property definition matches unless the text starts with a dash. -/
theorem matchPropDef_cons_ne {c : Char} (h : c ≠ '-') (rest : List Char) :
    matchPropDef (c :: rest) = none := by
  rw [matchPropDef.eq_def]
  split
  · rename_i heq
    injection heq with h1 _
    exact absurd h1 h
  · rfl

/-- After the double dash, a character outside the name-start class
defeats the match. -/
theorem matchPropDef_not_nameStart {c : Char} (h : isNameStart c = false) (rest : List Char) :
    matchPropDef ('-' :: '-' :: c :: rest) = none := by
  simp [matchPropDef, h]

/-- takeWhile collects a satisfying block up to the first failing
character. -/
theorem takeWhile_stop {p : Char → Bool} (xs : List Char) (y : Char) (ys : List Char)
    (h : ∀ x ∈ xs, p x = true) (hy : p y = false) :
    (xs ++ y :: ys).takeWhile p = xs := by
  induction xs with
  | nil => simp [List.takeWhile_cons, hy]
  | cons a as ih =>
    have ha : p a = true := h a (by simp)
    simp only [List.cons_append, List.takeWhile_cons, ha]
    rw [ih (fun x hx => h x (by simp [hx]))]
    simp

/-- A well-formed definition head matches, capturing the name and the
tail. -/
theorem matchPropDef_pos (c : Char) (cs tail : List Char)
    (h1 : isNameStart c = true) (h2 : ∀ x ∈ cs, isNameChar x = true) :
    matchPropDef ('-' :: '-' :: c :: (cs ++ (':' :: tail))) = some (c :: cs, tail) := by
  simp only [matchPropDef, h1, if_true]
  rw [takeWhile_stop cs ':' tail h2 (by decide)]
  rw [List.drop_left]
  simp [List.dropWhile_cons, isJsWs]

/-- dropWhile never lengthens a list. -/
theorem length_dropWhile_le (p : Char → Bool) (l : List Char) :
    (l.dropWhile p).length ≤ l.length := by
  induction l with
  | nil => simp
  | cons a as ih =>
    simp only [List.dropWhile_cons]
    split
    · simp only [List.length_cons]
      omega
    · simp

/-- A successful match consumes at least one character. -/
theorem matchPropDef_le {l nm after : List Char}
    (h : matchPropDef l = some (nm, after)) : after.length < l.length := by
  rw [matchPropDef.eq_def] at h
  split at h
  · rename_i c rest
    split at h
    · rename_i hstart
      dsimp only [] at h
      have hlen : ((rest.drop (rest.takeWhile isNameChar).length).dropWhile isJsWs).length ≤
          rest.length := by
        calc ((rest.drop (rest.takeWhile isNameChar).length).dropWhile isJsWs).length
            ≤ (rest.drop (rest.takeWhile isNameChar).length).length :=
              length_dropWhile_le _ _
          _ ≤ rest.length := by simp [List.length_drop]
      split at h
      · rename_i r2 heq2
        injection h with h1
        injection h1 with _ h2
        subst h2
        rw [heq2] at hlen
        simp only [List.length_cons] at hlen ⊢
        omega
      · exact absurd h (by simp)
    · exact absurd h (by simp)
  · exact absurd h (by simp)

/-- The scanner is fuel-indifferent once fuel covers the input length. -/
theorem scan_fuel_congr (pfx : List Char) :
    ∀ (n : Nat) (l : List Char), l.length ≤ n →
      ∀ (f₁ f₂ : Nat) (ls : Bool), l.length ≤ f₁ → l.length ≤ f₂ →
      prefixScan pfx f₁ ls l = prefixScan pfx f₂ ls l := by
  intro n
  induction n with
  | zero =>
    intro l hl f₁ f₂ ls _ _
    have hnil : l = [] := by
      cases l with
      | nil => rfl
      | cons a as => simp at hl
    subst hnil
    rw [scan_nil, scan_nil]
  | succ n ih =>
    intro l hl f₁ f₂ ls h1 h2
    cases l with
    | nil => rw [scan_nil, scan_nil]
    | cons c rest =>
      cases f₁ with
      | zero => simp at h1
      | succ a =>
        cases f₂ with
        | zero => simp at h2
        | succ b =>
          simp only [List.length_cons] at hl h1 h2
          simp only [prefixScan]
          cases hm : (if ls then matchPropDef (c :: rest) else none) with
          | some pr =>
            obtain ⟨nm, after⟩ := pr
            have hmm : matchPropDef (c :: rest) = some (nm, after) := by
              cases ls
              · simp at hm
              · simpa using hm
            have hafter : after.length ≤ rest.length := by
              have := matchPropDef_le hmm
              simp only [List.length_cons] at this
              omega
            simp only [hm]
            rw [ih after (by omega) a b false (by omega) (by omega)]
          | none =>
            simp only [hm]
            by_cases hsep : isJsWs c = true ∨ c = ';'
            · simp only [if_pos hsep]
              cases hm2 : matchPropDef rest with
              | some pr =>
                obtain ⟨nm, after⟩ := pr
                have hafter : after.length < rest.length := matchPropDef_le hm2
                simp only [hm2]
                rw [ih after (by omega) a b false (by omega) (by omega)]
              | none =>
                simp only [hm2]
                rw [ih rest (by omega) a b _ (by omega) (by omega)]
            · simp only [if_neg hsep]
              rw [ih rest (by omega) a b _ (by omega) (by omega)]

/-- At a line start, a matching definition is rewritten to carry the
prefix. -/
theorem scan_true_match (pfx : List Char) {l nm after : List Char} {fuel : Nat}
    (hm : matchPropDef l = some (nm, after)) (hf : l.length ≤ fuel) :
    prefixScan pfx fuel true l =
      '-' :: '-' :: (pfx ++ '-' :: (nm ++ ':' :: prefixScan pfx fuel false after)) := by
  cases fuel with
  | zero =>
    have : l = [] := by
      cases l with
      | nil => rfl
      | cons a as => simp at hf
    rw [this] at hm
    exact absurd hm (by simp [matchPropDef_nil])
  | succ f =>
    cases l with
    | nil => exact absurd hm (by simp [matchPropDef_nil])
    | cons c rest =>
      have hafter : after.length < (c :: rest).length := matchPropDef_le hm
      simp only [prefixScan, eq_self_iff_true, if_true, hm]
      rw [scan_fuel_congr pfx after.length after le_rfl f (f + 1) false
        (by simp only [List.length_cons] at hafter hf; omega)
        (by simp only [List.length_cons] at hafter hf; omega)]

/-- A whitespace or semicolon separator is never a dash. -/
theorem sep_ne_dash {c : Char} (hsep : isJsWs c = true ∨ c = ';') : c ≠ '-' := by
  intro h
  subst h
  rcases hsep with h | h
  · exact absurd h (by decide)
  · exact absurd h (by decide)

/-- After a separator, a matching definition is rewritten to carry the
prefix. -/
theorem scan_sep_match (pfx : List Char) {c : Char} {rest nm after : List Char} {fuel : Nat}
    (ls : Bool) (hsep : isJsWs c = true ∨ c = ';')
    (hm : matchPropDef rest = some (nm, after)) (hf : (c :: rest).length ≤ fuel) :
    prefixScan pfx fuel ls (c :: rest) =
      c :: '-' :: '-' :: (pfx ++ '-' :: (nm ++ ':' :: prefixScan pfx fuel false after)) := by
  cases fuel with
  | zero => simp at hf
  | succ f =>
    have hhead : matchPropDef (c :: rest) = none := matchPropDef_cons_ne (sep_ne_dash hsep) rest
    have hafter : after.length < rest.length := matchPropDef_le hm
    simp only [List.length_cons] at hf
    cases ls
    · simp only [prefixScan, Bool.false_eq_true, if_false, hm, if_pos hsep]
      rw [scan_fuel_congr pfx after.length after le_rfl f (f + 1) false (by omega) (by omega)]
    · simp only [prefixScan, eq_self_iff_true, if_true, hhead, hm, if_pos hsep]
      rw [scan_fuel_congr pfx after.length after le_rfl f (f + 1) false (by omega) (by omega)]

/-- After a separator with no match, the scanner emits it and records
whether it was a newline. -/
theorem scan_sep_skip (pfx : List Char) {c : Char} {rest : List Char} {fuel : Nat}
    (ls : Bool) (hsep : isJsWs c = true ∨ c = ';') (hm : matchPropDef rest = none)
    (b : Bool) (hb : decide (c = '\n') = b) (hf : (c :: rest).length ≤ fuel) :
    prefixScan pfx fuel ls (c :: rest) = c :: prefixScan pfx fuel b rest := by
  cases fuel with
  | zero => simp at hf
  | succ f =>
    have hhead : matchPropDef (c :: rest) = none := matchPropDef_cons_ne (sep_ne_dash hsep) rest
    simp only [List.length_cons] at hf
    subst hb
    cases ls
    · simp only [prefixScan, Bool.false_eq_true, if_false, hm, if_pos hsep]
      rw [scan_fuel_congr pfx rest.length rest le_rfl f (f + 1) _ (by omega) (by omega)]
    · simp only [prefixScan, eq_self_iff_true, if_true, hhead, hm, if_pos hsep]
      rw [scan_fuel_congr pfx rest.length rest le_rfl f (f + 1) _ (by omega) (by omega)]

/-- A non-whitespace character is not a newline. -/
theorem plain_not_nl {c : Char} (hws : isJsWs c = false) : decide (c = '\n') = false := by
  cases hd : decide (c = '\n') with
  | false => rfl
  | true =>
    have : c = '\n' := of_decide_eq_true hd
    subst this
    exact absurd hws (by decide)

/-- A plain character is copied unchanged in mid-line mode. -/
theorem scan_plain (pfx : List Char) {c : Char} {rest : List Char} {fuel : Nat}
    (hws : isJsWs c = false) (hsemi : c ≠ ';') (hf : (c :: rest).length ≤ fuel) :
    prefixScan pfx fuel false (c :: rest) = c :: prefixScan pfx fuel false rest := by
  cases fuel with
  | zero => simp at hf
  | succ f =>
    have hcond : ¬ (isJsWs c = true ∨ c = ';') := by
      rintro (h | h)
      · rw [hws] at h; exact Bool.false_ne_true h
      · exact hsemi h
    simp only [List.length_cons] at hf
    simp only [prefixScan, Bool.false_eq_true, if_false, if_neg hcond, plain_not_nl hws]
    rw [scan_fuel_congr pfx rest.length rest le_rfl f (f + 1) _ (by omega) (by omega)]

/-- A plain non-dash character at a line start is copied, leaving
line-start mode. -/
theorem scan_true_plain (pfx : List Char) {c : Char} {rest : List Char} {fuel : Nat}
    (hws : isJsWs c = false) (hsemi : c ≠ ';') (hdash : c ≠ '-')
    (hf : (c :: rest).length ≤ fuel) :
    prefixScan pfx fuel true (c :: rest) = c :: prefixScan pfx fuel false rest := by
  cases fuel with
  | zero => simp at hf
  | succ f =>
    have hhead : matchPropDef (c :: rest) = none := matchPropDef_cons_ne hdash rest
    have hcond : ¬ (isJsWs c = true ∨ c = ';') := by
      rintro (h | h)
      · rw [hws] at h; exact Bool.false_ne_true h
      · exact hsemi h
    simp only [List.length_cons] at hf
    simp only [prefixScan, eq_self_iff_true, if_true, hhead, if_neg hcond, plain_not_nl hws]
    rw [scan_fuel_congr pfx rest.length rest le_rfl f (f + 1) _ (by omega) (by omega)]

/-- A run of plain characters is copied verbatim. -/
theorem scan_plain_seg (pfx : List Char) (seg : List Char) {rest : List Char} {fuel : Nat}
    (hseg : ∀ c ∈ seg, isJsWs c = false ∧ c ≠ ';')
    (hf : (seg ++ rest).length ≤ fuel) :
    prefixScan pfx fuel false (seg ++ rest) = seg ++ prefixScan pfx fuel false rest := by
  induction seg with
  | nil => simp
  | cons a as ih =>
    have ha := hseg a (by simp)
    simp only [List.cons_append]
    rw [scan_plain pfx ha.1 ha.2 (by simpa using hf)]
    rw [ih (fun c hc => hseg c (by simp [hc])) (by simp at hf ⊢; omega)]

/-- Name characters are plain: not whitespace and not semicolons. -/
theorem isNameChar_plain {c : Char} (h : isNameChar c = true) :
    isJsWs c = false ∧ c ≠ ';' := by
  constructor
  · cases hw : isJsWs c with
    | false => rfl
    | true =>
      have hc : c = ' ' ∨ c = '\t' ∨ c = '\n' ∨ c = '\r' ∨ c = '\x0b' ∨ c = '\x0c' := by
        simpa [isJsWs] using hw
      rcases hc with rfl | rfl | rfl | rfl | rfl | rfl <;> exact absurd h (by decide)
  · intro hc
    subst hc
    exact absurd h (by decide)

/-- Every name-start character is a name character. -/
theorem nameStart_nameChar {c : Char} (h : isNameStart c = true) : isNameChar c = true := by
  have ha : c.isAlphanum = true := by
    simp only [isNameStart] at h
    simp [Char.isAlphanum, h]
  simp [isNameChar, ha]

/-- A well-formed name splits into a name-start head and a name-character
tail. -/
theorem wfNameL_cons {nm : List Char} (h : wfNameL nm) :
    ∃ c cs, nm = c :: cs ∧ isNameStart c = true ∧ ∀ x ∈ cs, isNameChar x = true := by
  cases nm with
  | nil => exact absurd h (by simp [wfNameL])
  | cons c cs =>
    have h' : isNameStart c = true ∧ ∀ x ∈ cs, isNameChar x = true := h
    exact ⟨c, cs, rfl, h'⟩

/-- Every character of a well-formed name is plain. -/
theorem wfNameL_plain {nm : List Char} (h : wfNameL nm) :
    ∀ x ∈ nm, isJsWs x = false ∧ x ≠ ';' := by
  obtain ⟨c, cs, rfl, h1, h2⟩ := wfNameL_cons h
  intro x hx
  rcases List.mem_cons.mp hx with rfl | hx2
  · exact isNameChar_plain (nameStart_nameChar h1)
  · exact isNameChar_plain (h2 x hx2)

/-- A well-formed name followed by a colon always matches as a definition. -/
theorem matchPropDef_wf (nm tail : List Char) (h : wfNameL nm) :
    matchPropDef ('-' :: '-' :: (nm ++ (':' :: tail))) = some (nm, tail) := by
  obtain ⟨c, cs, rfl, h1, h2⟩ := wfNameL_cons h
  simp only [List.cons_append]
  exact matchPropDef_pos c cs tail h1 h2

/-- A var(--name) reference segment is copied verbatim by the scanner. -/
theorem scan_varRef (pfx nm₂ : List Char) {rest : List Char} {fuel : Nat}
    (h₂ : wfNameL nm₂)
    (hf : ('v' :: 'a' :: 'r' :: '(' :: '-' :: '-' :: (nm₂ ++ (')' :: rest))).length ≤ fuel) :
    prefixScan pfx fuel false ('v' :: 'a' :: 'r' :: '(' :: '-' :: '-' :: (nm₂ ++ (')' :: rest))) =
      'v' :: 'a' :: 'r' :: '(' :: '-' :: '-' :: (nm₂ ++ (')' :: prefixScan pfx fuel false rest)) := by
  simp only [List.length_cons, List.length_append] at hf
  rw [scan_plain pfx (by decide) (by decide)
    (by simp [List.length_cons, List.length_append]; omega)]
  rw [scan_plain pfx (by decide) (by decide)
    (by simp [List.length_cons, List.length_append]; omega)]
  rw [scan_plain pfx (by decide) (by decide)
    (by simp [List.length_cons, List.length_append]; omega)]
  rw [scan_plain pfx (by decide) (by decide)
    (by simp [List.length_cons, List.length_append]; omega)]
  rw [scan_plain pfx (by decide) (by decide)
    (by simp [List.length_cons, List.length_append]; omega)]
  rw [scan_plain pfx (by decide) (by decide)
    (by simp [List.length_cons, List.length_append]; omega)]
  rw [scan_plain_seg pfx nm₂ (wfNameL_plain h₂)
    (by simp [List.length_cons, List.length_append]; omega)]
  rw [scan_plain pfx (by decide) (by decide)
    (by simp [List.length_cons, List.length_append]; omega)]

/-- List form: two adjacent definition/reference declarations on one line
are both rewritten, with both var(...) references untouched. -/
theorem scanPairList (pfx nm₁ nm₂ : List Char) (h₁ : wfNameL nm₁) (h₂ : wfNameL nm₂)
    (fuel : Nat)
    (hf : ('-' :: '-' :: (nm₁ ++ (':' :: ' ' :: 'v' :: 'a' :: 'r' :: '(' :: '-' :: '-' ::
      (nm₂ ++ (')' :: ';' :: '-' :: '-' :: (nm₁ ++ (':' :: ' ' :: 'v' :: 'a' :: 'r' :: '(' ::
        '-' :: '-' :: (nm₂ ++ [')', ';'])))))))).length ≤ fuel) :
    prefixScan pfx fuel true
      ('-' :: '-' :: (nm₁ ++ (':' :: ' ' :: 'v' :: 'a' :: 'r' :: '(' :: '-' :: '-' ::
        (nm₂ ++ (')' :: ';' :: '-' :: '-' :: (nm₁ ++ (':' :: ' ' :: 'v' :: 'a' :: 'r' :: '(' ::
          '-' :: '-' :: (nm₂ ++ [')', ';'])))))))) =
      '-' :: '-' :: (pfx ++ '-' :: (nm₁ ++ ':' :: ' ' :: 'v' :: 'a' :: 'r' :: '(' :: '-' :: '-' ::
        (nm₂ ++ ')' :: ';' :: '-' :: '-' :: (pfx ++ '-' :: (nm₁ ++ ':' :: ' ' :: 'v' :: 'a' ::
          'r' :: '(' :: '-' :: '-' :: (nm₂ ++ [')', ';'])))))) := by
  simp only [List.length_cons, List.length_append] at hf
  rw [scan_true_match pfx (matchPropDef_wf nm₁ _ h₁)
    (by simp [List.length_cons, List.length_append]; omega)]
  rw [scan_sep_skip pfx false (Or.inl (by decide)) (matchPropDef_cons_ne (by decide) _)
    false (by decide) (by simp [List.length_cons, List.length_append]; omega)]
  rw [scan_varRef pfx nm₂ h₂ (by simp [List.length_cons, List.length_append]; omega)]
  rw [scan_sep_match pfx false (Or.inr rfl) (matchPropDef_wf nm₁ _ h₁)
    (by simp [List.length_cons, List.length_append]; omega)]
  rw [scan_sep_skip pfx false (Or.inl (by decide)) (matchPropDef_cons_ne (by decide) _)
    false (by decide) (by simp [List.length_cons, List.length_append]; omega)]
  rw [scan_varRef pfx nm₂ h₂ (by simp [List.length_cons, List.length_append]; omega)]
  rw [scan_sep_skip pfx false (Or.inr rfl) matchPropDef_nil
    false (by decide) (by simp [List.length_cons, List.length_append]; omega)]
  rw [scan_nil]

/-- List form: a definition indented inside a rule block is rewritten. -/
theorem scanBlockList (pfx nm : List Char) (h : wfNameL nm) (fuel : Nat)
    (hf : (':' :: 'r' :: 'o' :: 'o' :: 't' :: ' ' :: '{' :: '\n' :: ' ' :: ' ' :: '-' :: '-' ::
      (nm ++ (':' :: ' ' :: '0' :: ';' :: '\n' :: '}' :: []))).length ≤ fuel) :
    prefixScan pfx fuel true
      (':' :: 'r' :: 'o' :: 'o' :: 't' :: ' ' :: '{' :: '\n' :: ' ' :: ' ' :: '-' :: '-' ::
        (nm ++ (':' :: ' ' :: '0' :: ';' :: '\n' :: '}' :: []))) =
      ':' :: 'r' :: 'o' :: 'o' :: 't' :: ' ' :: '{' :: '\n' :: ' ' :: ' ' :: '-' :: '-' ::
        (pfx ++ '-' :: (nm ++ ':' :: ' ' :: '0' :: ';' :: '\n' :: '}' :: [])) := by
  simp only [List.length_cons, List.length_append] at hf
  rw [scan_true_plain pfx (by decide) (by decide) (by decide)
    (by simp [List.length_cons, List.length_append]; omega)]
  rw [scan_plain pfx (by decide) (by decide)
    (by simp [List.length_cons, List.length_append]; omega)]
  rw [scan_plain pfx (by decide) (by decide)
    (by simp [List.length_cons, List.length_append]; omega)]
  rw [scan_plain pfx (by decide) (by decide)
    (by simp [List.length_cons, List.length_append]; omega)]
  rw [scan_plain pfx (by decide) (by decide)
    (by simp [List.length_cons, List.length_append]; omega)]
  rw [scan_sep_skip pfx false (Or.inl (by decide)) (matchPropDef_cons_ne (by decide) _)
    false (by decide) (by simp [List.length_cons, List.length_append]; omega)]
  rw [scan_plain pfx (by decide) (by decide)
    (by simp [List.length_cons, List.length_append]; omega)]
  rw [scan_sep_skip pfx false (Or.inl (by decide)) (matchPropDef_cons_ne (by decide) _)
    true (by decide) (by simp [List.length_cons, List.length_append]; omega)]
  rw [scan_sep_skip pfx true (Or.inl (by decide)) (matchPropDef_cons_ne (by decide) _)
    false (by decide) (by simp [List.length_cons, List.length_append]; omega)]
  rw [scan_sep_match pfx false (Or.inl (by decide)) (matchPropDef_wf nm _ h)
    (by simp [List.length_cons, List.length_append]; omega)]
  rw [scan_sep_skip pfx false (Or.inl (by decide)) (matchPropDef_cons_ne (by decide) _)
    false (by decide) (by simp [List.length_cons, List.length_append]; omega)]
  rw [scan_plain pfx (by decide) (by decide)
    (by simp [List.length_cons, List.length_append]; omega)]
  rw [scan_sep_skip pfx false (Or.inr rfl) (matchPropDef_cons_ne (by decide) _)
    false (by decide) (by simp [List.length_cons, List.length_append]; omega)]
  rw [scan_sep_skip pfx false (Or.inl (by decide)) (matchPropDef_cons_ne (by decide) _)
    true (by decide) (by simp [List.length_cons, List.length_append]; omega)]
  rw [scan_true_plain pfx (by decide) (by decide) (by decide)
    (by simp [List.length_cons, List.length_append]; omega)]
  rw [scan_nil]

/-- List form: a definition whose name does not start with a letter is
left unrewritten even after whitespace. -/
theorem scanBadStartList (pfx : List Char) (d : Char) (nm : List Char)
    (hd0 : isNameStart d = false) (hd1 : isNameChar d = true)
    (hnm : ∀ x ∈ nm, isNameChar x = true) (fuel : Nat)
    (hf : (' ' :: ' ' :: '-' :: '-' :: d ::
      (nm ++ (':' :: ' ' :: '0' :: ';' :: []))).length ≤ fuel) :
    prefixScan pfx fuel true
      (' ' :: ' ' :: '-' :: '-' :: d :: (nm ++ (':' :: ' ' :: '0' :: ';' :: []))) =
      ' ' :: ' ' :: '-' :: '-' :: d :: (nm ++ (':' :: ' ' :: '0' :: ';' :: [])) := by
  simp only [List.length_cons, List.length_append] at hf
  rw [scan_sep_skip pfx true (Or.inl (by decide)) (matchPropDef_cons_ne (by decide) _)
    false (by decide) (by simp [List.length_cons, List.length_append]; omega)]
  rw [scan_sep_skip pfx false (Or.inl (by decide)) (matchPropDef_not_nameStart hd0 _)
    false (by decide) (by simp [List.length_cons, List.length_append]; omega)]
  rw [scan_plain pfx (by decide) (by decide)
    (by simp [List.length_cons, List.length_append]; omega)]
  rw [scan_plain pfx (by decide) (by decide)
    (by simp [List.length_cons, List.length_append]; omega)]
  rw [scan_plain pfx (isNameChar_plain hd1).1 (isNameChar_plain hd1).2
    (by simp [List.length_cons, List.length_append]; omega)]
  rw [scan_plain_seg pfx nm (fun c hc => isNameChar_plain (hnm c hc))
    (by simp [List.length_cons, List.length_append]; omega)]
  rw [scan_plain pfx (by decide) (by decide)
    (by simp [List.length_cons, List.length_append]; omega)]
  rw [scan_sep_skip pfx false (Or.inl (by decide)) (matchPropDef_cons_ne (by decide) _)
    false (by decide) (by simp [List.length_cons, List.length_append]; omega)]
  rw [scan_plain pfx (by decide) (by decide)
    (by simp [List.length_cons, List.length_append]; omega)]
  rw [scan_sep_skip pfx false (Or.inr rfl) matchPropDef_nil
    false (by decide) (by simp [List.length_cons, List.length_append]; omega)]
  rw [scan_nil]

/-- List form: a definition glued to an opening brace is left unrewritten. -/
theorem scanBraceGluedList (pfx nm : List Char) (h : wfNameL nm) (fuel : Nat)
    (hf : (':' :: 'r' :: 'o' :: 'o' :: 't' :: '{' :: '-' :: '-' ::
      (nm ++ (':' :: ' ' :: '1' :: 'p' :: 'x' :: ';' :: '}' :: []))).length ≤ fuel) :
    prefixScan pfx fuel true
      (':' :: 'r' :: 'o' :: 'o' :: 't' :: '{' :: '-' :: '-' ::
        (nm ++ (':' :: ' ' :: '1' :: 'p' :: 'x' :: ';' :: '}' :: []))) =
      ':' :: 'r' :: 'o' :: 'o' :: 't' :: '{' :: '-' :: '-' ::
        (nm ++ (':' :: ' ' :: '1' :: 'p' :: 'x' :: ';' :: '}' :: [])) := by
  simp only [List.length_cons, List.length_append] at hf
  rw [scan_true_plain pfx (by decide) (by decide) (by decide)
    (by simp [List.length_cons, List.length_append]; omega)]
  rw [scan_plain pfx (by decide) (by decide)
    (by simp [List.length_cons, List.length_append]; omega)]
  rw [scan_plain pfx (by decide) (by decide)
    (by simp [List.length_cons, List.length_append]; omega)]
  rw [scan_plain pfx (by decide) (by decide)
    (by simp [List.length_cons, List.length_append]; omega)]
  rw [scan_plain pfx (by decide) (by decide)
    (by simp [List.length_cons, List.length_append]; omega)]
  rw [scan_plain pfx (by decide) (by decide)
    (by simp [List.length_cons, List.length_append]; omega)]
  rw [scan_plain pfx (by decide) (by decide)
    (by simp [List.length_cons, List.length_append]; omega)]
  rw [scan_plain pfx (by decide) (by decide)
    (by simp [List.length_cons, List.length_append]; omega)]
  rw [scan_plain_seg pfx nm (wfNameL_plain h)
    (by simp [List.length_cons, List.length_append]; omega)]
  rw [scan_plain pfx (by decide) (by decide)
    (by simp [List.length_cons, List.length_append]; omega)]
  rw [scan_sep_skip pfx false (Or.inl (by decide)) (matchPropDef_cons_ne (by decide) _)
    false (by decide) (by simp [List.length_cons, List.length_append]; omega)]
  rw [scan_plain pfx (by decide) (by decide)
    (by simp [List.length_cons, List.length_append]; omega)]
  rw [scan_plain pfx (by decide) (by decide)
    (by simp [List.length_cons, List.length_append]; omega)]
  rw [scan_plain pfx (by decide) (by decide)
    (by simp [List.length_cons, List.length_append]; omega)]
  rw [scan_sep_skip pfx false (Or.inr rfl) (matchPropDef_cons_ne (by decide) _)
    false (by decide) (by simp [List.length_cons, List.length_append]; omega)]
  rw [scan_plain pfx (by decide) (by decide)
    (by simp [List.length_cons, List.length_append]; omega)]
  rw [scan_nil]

/-- The character data produced by prefixOpenPropsCSS. -/
theorem prefixOpenPropsCSS_data (css pfx : String) :
    (prefixOpenPropsCSS css pfx).data =
      prefixScan pfx.data (css.data.length + 1) true css.data := rfl

/-- C1 amended: for every prefix and every well-formed, letter-initial
custom-property name, prefixOpenPropsCSS rewrites each definition preceded
by a line start, whitespace or a semicolon to carry the prefix, and never
rewrites a reference inside a var(...) call - including adjacent
definition/reference pairs on one line - but a definition whose name does
not start with a letter, and a definition glued directly to an opening
brace, are left unchanged. -/
theorem prefixOpenPropsCSS_amended :
    (∀ pfx nm₁ nm₂ : String, wfName nm₁ → wfName nm₂ →
      prefixOpenPropsCSS
          ("--" ++ nm₁ ++ ": var(--" ++ nm₂ ++ ");--" ++ nm₁ ++ ": var(--" ++ nm₂ ++ ");") pfx =
        "--" ++ pfx ++ "-" ++ nm₁ ++ ": var(--" ++ nm₂ ++ ");--" ++ pfx ++ "-" ++ nm₁ ++
          ": var(--" ++ nm₂ ++ ");") ∧
    (∀ pfx nm : String, wfName nm →
      prefixOpenPropsCSS (":root \x7b\n  --" ++ nm ++ ": 0;\n\x7d") pfx =
        ":root \x7b\n  --" ++ pfx ++ "-" ++ nm ++ ": 0;\n\x7d") ∧
    (∀ pfx nm : String, ∀ d : Char, isNameStart d = false → isNameChar d = true →
      (∀ x ∈ nm.data, isNameChar x = true) →
      prefixOpenPropsCSS ("  --" ++ String.mk [d] ++ nm ++ ": 0;") pfx =
        "  --" ++ String.mk [d] ++ nm ++ ": 0;") ∧
    (∀ pfx nm : String, wfName nm →
      prefixOpenPropsCSS (":root\x7b--" ++ nm ++ ": 1px;\x7d") pfx =
        ":root\x7b--" ++ nm ++ ": 1px;\x7d") := by
  have e1 : ("--" : String).data = ['-', '-'] := rfl
  have e2 : (": var(--" : String).data = [':', ' ', 'v', 'a', 'r', '(', '-', '-'] := rfl
  have e3 : (");--" : String).data = [')', ';', '-', '-'] := rfl
  have e4 : (");" : String).data = [')', ';'] := rfl
  have e5 : ("-" : String).data = ['-'] := rfl
  have e6 : (":root \x7b\n  --" : String).data =
      [':', 'r', 'o', 'o', 't', ' ', '\x7b', '\n', ' ', ' ', '-', '-'] := rfl
  have e7 : (": 0;\n\x7d" : String).data = [':', ' ', '0', ';', '\n', '\x7d'] := rfl
  have e8 : ("  --" : String).data = [' ', ' ', '-', '-'] := rfl
  have e9 : (": 0;" : String).data = [':', ' ', '0', ';'] := rfl
  have e10 : (":root\x7b--" : String).data =
      [':', 'r', 'o', 'o', 't', '\x7b', '-', '-'] := rfl
  have e11 : (": 1px;\x7d" : String).data = [':', ' ', '1', 'p', 'x', ';', '\x7d'] := rfl
  have e12 : ∀ d : Char, (String.mk [d]).data = [d] := fun _ => rfl
  refine ⟨?_, ?_, ?_, ?_⟩
  · intro pfx nm₁ nm₂ h₁ h₂
    refine String.ext ?_
    simp only [prefixOpenPropsCSS_data, String.data_append, e1, e2, e3, e4, e5,
      List.cons_append, List.append_assoc, List.nil_append]
    exact scanPairList pfx.data nm₁.data nm₂.data h₁ h₂ _
      (by simp [List.length_cons, List.length_append])
  · intro pfx nm h
    refine String.ext ?_
    simp only [prefixOpenPropsCSS_data, String.data_append, e5, e6, e7,
      List.cons_append, List.append_assoc, List.nil_append]
    exact scanBlockList pfx.data nm.data h _
      (by simp [List.length_cons, List.length_append])
  · intro pfx nm d hd0 hd1 hnm
    refine String.ext ?_
    simp only [prefixOpenPropsCSS_data, String.data_append, e8, e9, e12,
      List.cons_append, List.append_assoc, List.nil_append]
    exact scanBadStartList pfx.data d nm.data hd0 hd1 hnm _
      (by simp [List.length_cons, List.length_append])
  · intro pfx nm h
    refine String.ext ?_
    simp only [prefixOpenPropsCSS_data, String.data_append, e10, e11,
      List.cons_append, List.append_assoc, List.nil_append]
    exact scanBraceGluedList pfx.data nm.data h _
      (by simp [List.length_cons, List.length_append])

/-- Witness for prefixOpenPropsCSS_amended at prefix op, names size-3, b
and xl, and digit 2. -/
theorem prefixOpenPropsCSS_amended_witness :
    wfName "size-3" ∧ wfName "b" ∧ isNameStart '2' = false ∧ isNameChar '2' = true ∧
    (∀ x ∈ ("xl" : String).data, isNameChar x = true) ∧
    prefixOpenPropsCSS
        ("--" ++ "size-3" ++ ": var(--" ++ "b" ++ ");--" ++ "size-3" ++ ": var(--" ++
          "b" ++ ");") "op" =
      "--" ++ "op" ++ "-" ++ "size-3" ++ ": var(--" ++ "b" ++ ");--" ++ "op" ++ "-" ++
        "size-3" ++ ": var(--" ++ "b" ++ ");" ∧
    prefixOpenPropsCSS (":root \x7b\n  --" ++ "size-3" ++ ": 0;\n\x7d") "op" =
      ":root \x7b\n  --" ++ "op" ++ "-" ++ "size-3" ++ ": 0;\n\x7d" ∧
    prefixOpenPropsCSS ("  --" ++ String.mk ['2'] ++ "xl" ++ ": 0;") "op" =
      "  --" ++ String.mk ['2'] ++ "xl" ++ ": 0;" ∧
    prefixOpenPropsCSS (":root\x7b--" ++ "size-3" ++ ": 1px;\x7d") "op" =
      ":root\x7b--" ++ "size-3" ++ ": 1px;\x7d" := by
  have h1 : wfName "size-3" := ⟨by decide, by decide⟩
  have h2 : wfName "b" := ⟨by decide, by decide⟩
  exact ⟨h1, h2, by decide, by decide, by decide,
    prefixOpenPropsCSS_amended.1 "op" "size-3" "b" h1 h2,
    prefixOpenPropsCSS_amended.2.1 "op" "size-3" h1,
    prefixOpenPropsCSS_amended.2.2.1 "op" "xl" '2' (by decide) (by decide) (by decide),
    prefixOpenPropsCSS_amended.2.2.2 "op" "size-3" h1⟩

/-- C2: processing the shadows file with seed hue 265.7 (rounded to 266)
replaces the root block's default shadow-color with the light tint
`266 10% 15%`, and the dark-mode declarations, with shadow-color set to
the dark tint `266 30% 5%`, appear both under the `[data-theme="dark"]`
attribute selector and under the `prefers-color-scheme: dark` media
query; the `var(--shadow-color)` reference is untouched. -/
theorem transformOpenPropsCSS_shadows_spec :
    transformOpenPropsCSS shadowsFixture "shadows" (2657/10) = shadowsExpected ∧
    jsRound (2657/10) = 266 := by
  have h266 : jsRound (2657/10 : ℚ) = 266 := by norm_num [jsRound]
  refine ⟨?_, h266⟩
  simp only [transformOpenPropsCSS, injectShadowColor]
  rw [h266]
  decide

/-- Reading a path just written returns the new contents. -/
theorem readFS_write_same (p c : String) (fs : FS) : readFS p (writeFS p c fs) = some c := by
  simp [readFS, writeFS, List.lookup]

/-- Writing one path leaves reads of another path unchanged. -/
theorem readFS_write_ne (c : String) (fs : FS) {p q : String} (h : p ≠ q) :
    readFS p (writeFS q c fs) = readFS p fs := by
  simp [readFS, writeFS, List.lookup, beq_eq_false_iff_ne.mpr h]

/-- joinP as a right-nested append. -/
theorem joinP_eq (a b : String) : joinP a b = a ++ ("/" ++ b) := by
  simp [joinP, String.append_assoc]

/-- Nested joins flatten. -/
theorem joinP_joinP (out m f : String) : joinP (joinP out m) f = joinP out (m ++ "/" ++ f) := by
  simp [joinP, String.append_assoc]

/-- Joining distinct suffixes onto one directory gives distinct paths. -/
theorem pathNe (out : String) {a b : String} (h : ("/" ++ a : String) ≠ "/" ++ b) :
    joinP out a ≠ joinP out b := by
  rw [joinP_eq, joinP_eq]; exact strAppend_ne out h

/-- generateTokens always (re)writes semantic.css. -/
theorem gen_read_semantic (out : String) (r : RenderedRun) (fs : FS) :
    readFS (joinP out "semantic.css") (generateTokensFS out r fs) = some r.semanticCSS := by
  have hidx : joinP out "semantic.css" ≠ joinP out "index.css" := pathNe out (by decide)
  have happ : joinP out "semantic.css" ≠ joinP out "app.css" := pathNe out (by decide)
  simp only [generateTokensFS, DEFAULT_CONFIG, List.foldl]
  split
  · rw [readFS_write_ne _ _ hidx, readFS_write_same]
  · rw [readFS_write_ne _ _ happ, readFS_write_ne _ _ hidx, readFS_write_same]

/-- generateTokens always (re)writes index.css. -/
theorem gen_read_index (out : String) (r : RenderedRun) (fs : FS) :
    readFS (joinP out "index.css") (generateTokensFS out r fs) = some r.indexCSS := by
  have happ : joinP out "index.css" ≠ joinP out "app.css" := pathNe out (by decide)
  simp only [generateTokensFS, DEFAULT_CONFIG, List.foldl]
  split
  · rw [readFS_write_same]
  · rw [readFS_write_ne _ _ happ, readFS_write_same]

/-- generateTokens always (re)writes material/palettes.css. -/
theorem gen_read_palettes (out : String) (r : RenderedRun) (fs : FS) :
    readFS (joinP (joinP out "material") "palettes.css") (generateTokensFS out r fs) =
      some r.palettesCSS := by
  have happ : joinP (joinP out "material") "palettes.css" ≠ joinP out "app.css" := by
    rw [joinP_joinP]; exact pathNe out (by decide)
  have hidx : joinP (joinP out "material") "palettes.css" ≠ joinP out "index.css" := by
    rw [joinP_joinP]; exact pathNe out (by decide)
  have hsem : joinP (joinP out "material") "palettes.css" ≠ joinP out "semantic.css" := by
    rw [joinP_joinP]; exact pathNe out (by decide)
  have hop : ∀ f : String, joinP (joinP out "material") "palettes.css" ≠
      joinP (joinP out "open-props") f := by
    intro f
    rw [joinP_joinP, joinP_joinP]
    rw [joinP_eq, joinP_eq]
    intro hc
    have := strAppend_left_cancel hc
    have hd := congrArg String.data this
    simp [String.data_append] at hd
  simp only [generateTokensFS, DEFAULT_CONFIG, List.foldl]
  split
  · simp only [readFS_write_ne _ _ hidx, readFS_write_ne _ _ hsem,
      readFS_write_ne _ _ (hop _), readFS_write_same]
  · simp only [readFS_write_ne _ _ happ, readFS_write_ne _ _ hidx, readFS_write_ne _ _ hsem,
      readFS_write_ne _ _ (hop _), readFS_write_same]

/-- Existence at one path is unaffected by a write to another. -/
theorem fileExistsFS_write_ne (c : String) (fs : FS) {p q : String} (h : p ≠ q) :
    fileExistsFS p (writeFS q c fs) = fileExistsFS p fs := by
  simp [fileExistsFS, readFS_write_ne c fs h]

/-- A written path exists. -/
theorem fileExistsFS_write_same (p c : String) (fs : FS) :
    fileExistsFS p (writeFS p c fs) = true := by
  simp [fileExistsFS, readFS_write_same]

/-- app.css after one run: the prior contents when the file already existed, the template otherwise. -/
theorem gen_read_app (out : String) (r : RenderedRun) (fs : FS) :
    readFS (joinP out "app.css") (generateTokensFS out r fs) =
      some ((readFS (joinP out "app.css") fs).getD r.appCSS) := by
  have hidx : joinP out "app.css" ≠ joinP out "index.css" := pathNe out (by decide)
  have hsem : joinP out "app.css" ≠ joinP out "semantic.css" := pathNe out (by decide)
  have hpal : joinP out "app.css" ≠ joinP (joinP out "material") "palettes.css" := by
    rw [joinP_joinP]; exact pathNe out (by decide)
  have hop : ∀ f : String, joinP out "app.css" ≠ joinP (joinP out "open-props") f := by
    intro f
    rw [joinP_joinP, joinP_eq, joinP_eq]
    intro hc
    have hd := congrArg String.data (strAppend_left_cancel hc)
    simp [String.data_append] at hd
  simp only [generateTokensFS, DEFAULT_CONFIG, List.foldl,
    fileExistsFS_write_ne _ _ hidx, fileExistsFS_write_ne _ _ hsem,
    fileExistsFS_write_ne _ _ hpal, fileExistsFS_write_ne _ _ (hop _)]
  by_cases hex : fileExistsFS (joinP out "app.css") fs
  · rw [if_pos hex]
    rw [readFS_write_ne _ _ hidx, readFS_write_ne _ _ hsem,
      readFS_write_ne _ _ (hop _), readFS_write_ne _ _ (hop _), readFS_write_ne _ _ (hop _),
      readFS_write_ne _ _ (hop _), readFS_write_ne _ _ (hop _), readFS_write_ne _ _ hpal]
    obtain ⟨v, hv⟩ := Option.isSome_iff_exists.mp hex
    rw [hv]
    rfl
  · rw [if_neg hex, readFS_write_same]
    have : readFS (joinP out "app.css") fs = none := Option.not_isSome_iff_eq_none.mp hex
    rw [this]
    rfl

/-- app.css exists after any run. -/
theorem gen_exists_app (out : String) (r : RenderedRun) (fs : FS) :
    fileExistsFS (joinP out "app.css") (generateTokensFS out r fs) = true := by
  have hidx : joinP out "app.css" ≠ joinP out "index.css" := pathNe out (by decide)
  have hsem : joinP out "app.css" ≠ joinP out "semantic.css" := pathNe out (by decide)
  have hpal : joinP out "app.css" ≠ joinP (joinP out "material") "palettes.css" := by
    rw [joinP_joinP]; exact pathNe out (by decide)
  have hop : ∀ f : String, joinP out "app.css" ≠ joinP (joinP out "open-props") f := by
    intro f
    rw [joinP_joinP, joinP_eq, joinP_eq]
    intro hc
    have hd := congrArg String.data (strAppend_left_cancel hc)
    simp [String.data_append] at hd
  simp only [generateTokensFS, DEFAULT_CONFIG, List.foldl,
    fileExistsFS_write_ne _ _ hidx, fileExistsFS_write_ne _ _ hsem,
    fileExistsFS_write_ne _ _ hpal, fileExistsFS_write_ne _ _ (hop _)]
  by_cases hex : fileExistsFS (joinP out "app.css") fs
  · rw [if_pos hex, fileExistsFS_write_ne _ _ hidx, fileExistsFS_write_ne _ _ hsem,
      fileExistsFS_write_ne _ _ (hop _), fileExistsFS_write_ne _ _ (hop _),
      fileExistsFS_write_ne _ _ (hop _), fileExistsFS_write_ne _ _ (hop _),
      fileExistsFS_write_ne _ _ (hop _), fileExistsFS_write_ne _ _ hpal]
    exact hex
  · rw [if_neg hex, fileExistsFS_write_same]


/-- generateTokens always (re)writes open-props/fonts.css. -/
theorem gen_read_op_fonts (out : String) (r : RenderedRun) (fs : FS) :
    readFS (joinP (joinP out "open-props") ("fonts" ++ ".css")) (generateTokensFS out r fs) =
      some (r.openPropsCSS "fonts") := by
  have hopne : ∀ a b : String, a.data ≠ b.data →
      joinP (joinP out "open-props") a ≠ joinP (joinP out "open-props") b := by
    intro a b h
    rw [joinP_joinP, joinP_joinP, joinP_eq, joinP_eq]
    intro hc
    have hd := congrArg String.data (strAppend_left_cancel hc)
    simp only [String.data_append, ← List.append_assoc] at hd
    exact h (List.append_cancel_left hd)
  have happ : joinP (joinP out "open-props") ("fonts" ++ ".css") ≠ joinP out "app.css" := by
    rw [joinP_joinP]; exact pathNe out (by decide)
  have hidx : joinP (joinP out "open-props") ("fonts" ++ ".css") ≠ joinP out "index.css" := by
    rw [joinP_joinP]; exact pathNe out (by decide)
  have hsem : joinP (joinP out "open-props") ("fonts" ++ ".css") ≠ joinP out "semantic.css" := by
    rw [joinP_joinP]; exact pathNe out (by decide)
  simp only [generateTokensFS, DEFAULT_CONFIG, List.foldl]
  split
  · rw [readFS_write_ne _ _ hidx, readFS_write_ne _ _ hsem,
      readFS_write_ne _ _ (hopne _ _ (by decide)),
      readFS_write_ne _ _ (hopne _ _ (by decide)),
      readFS_write_ne _ _ (hopne _ _ (by decide)),
      readFS_write_ne _ _ (hopne _ _ (by decide)),
      readFS_write_same]
  · rw [readFS_write_ne _ _ happ, readFS_write_ne _ _ hidx, readFS_write_ne _ _ hsem,
      readFS_write_ne _ _ (hopne _ _ (by decide)),
      readFS_write_ne _ _ (hopne _ _ (by decide)),
      readFS_write_ne _ _ (hopne _ _ (by decide)),
      readFS_write_ne _ _ (hopne _ _ (by decide)),
      readFS_write_same]

/-- generateTokens always (re)writes open-props/sizes.css. -/
theorem gen_read_op_sizes (out : String) (r : RenderedRun) (fs : FS) :
    readFS (joinP (joinP out "open-props") ("sizes" ++ ".css")) (generateTokensFS out r fs) =
      some (r.openPropsCSS "sizes") := by
  have hopne : ∀ a b : String, a.data ≠ b.data →
      joinP (joinP out "open-props") a ≠ joinP (joinP out "open-props") b := by
    intro a b h
    rw [joinP_joinP, joinP_joinP, joinP_eq, joinP_eq]
    intro hc
    have hd := congrArg String.data (strAppend_left_cancel hc)
    simp only [String.data_append, ← List.append_assoc] at hd
    exact h (List.append_cancel_left hd)
  have happ : joinP (joinP out "open-props") ("sizes" ++ ".css") ≠ joinP out "app.css" := by
    rw [joinP_joinP]; exact pathNe out (by decide)
  have hidx : joinP (joinP out "open-props") ("sizes" ++ ".css") ≠ joinP out "index.css" := by
    rw [joinP_joinP]; exact pathNe out (by decide)
  have hsem : joinP (joinP out "open-props") ("sizes" ++ ".css") ≠ joinP out "semantic.css" := by
    rw [joinP_joinP]; exact pathNe out (by decide)
  simp only [generateTokensFS, DEFAULT_CONFIG, List.foldl]
  split
  · rw [readFS_write_ne _ _ hidx, readFS_write_ne _ _ hsem,
      readFS_write_ne _ _ (hopne _ _ (by decide)),
      readFS_write_ne _ _ (hopne _ _ (by decide)),
      readFS_write_ne _ _ (hopne _ _ (by decide)),
      readFS_write_same]
  · rw [readFS_write_ne _ _ happ, readFS_write_ne _ _ hidx, readFS_write_ne _ _ hsem,
      readFS_write_ne _ _ (hopne _ _ (by decide)),
      readFS_write_ne _ _ (hopne _ _ (by decide)),
      readFS_write_ne _ _ (hopne _ _ (by decide)),
      readFS_write_same]

/-- generateTokens always (re)writes open-props/shadows.css. -/
theorem gen_read_op_shadows (out : String) (r : RenderedRun) (fs : FS) :
    readFS (joinP (joinP out "open-props") ("shadows" ++ ".css")) (generateTokensFS out r fs) =
      some (r.openPropsCSS "shadows") := by
  have hopne : ∀ a b : String, a.data ≠ b.data →
      joinP (joinP out "open-props") a ≠ joinP (joinP out "open-props") b := by
    intro a b h
    rw [joinP_joinP, joinP_joinP, joinP_eq, joinP_eq]
    intro hc
    have hd := congrArg String.data (strAppend_left_cancel hc)
    simp only [String.data_append, ← List.append_assoc] at hd
    exact h (List.append_cancel_left hd)
  have happ : joinP (joinP out "open-props") ("shadows" ++ ".css") ≠ joinP out "app.css" := by
    rw [joinP_joinP]; exact pathNe out (by decide)
  have hidx : joinP (joinP out "open-props") ("shadows" ++ ".css") ≠ joinP out "index.css" := by
    rw [joinP_joinP]; exact pathNe out (by decide)
  have hsem : joinP (joinP out "open-props") ("shadows" ++ ".css") ≠ joinP out "semantic.css" := by
    rw [joinP_joinP]; exact pathNe out (by decide)
  simp only [generateTokensFS, DEFAULT_CONFIG, List.foldl]
  split
  · rw [readFS_write_ne _ _ hidx, readFS_write_ne _ _ hsem,
      readFS_write_ne _ _ (hopne _ _ (by decide)),
      readFS_write_ne _ _ (hopne _ _ (by decide)),
      readFS_write_same]
  · rw [readFS_write_ne _ _ happ, readFS_write_ne _ _ hidx, readFS_write_ne _ _ hsem,
      readFS_write_ne _ _ (hopne _ _ (by decide)),
      readFS_write_ne _ _ (hopne _ _ (by decide)),
      readFS_write_same]

/-- generateTokens always (re)writes open-props/borders.css. -/
theorem gen_read_op_borders (out : String) (r : RenderedRun) (fs : FS) :
    readFS (joinP (joinP out "open-props") ("borders" ++ ".css")) (generateTokensFS out r fs) =
      some (r.openPropsCSS "borders") := by
  have hopne : ∀ a b : String, a.data ≠ b.data →
      joinP (joinP out "open-props") a ≠ joinP (joinP out "open-props") b := by
    intro a b h
    rw [joinP_joinP, joinP_joinP, joinP_eq, joinP_eq]
    intro hc
    have hd := congrArg String.data (strAppend_left_cancel hc)
    simp only [String.data_append, ← List.append_assoc] at hd
    exact h (List.append_cancel_left hd)
  have happ : joinP (joinP out "open-props") ("borders" ++ ".css") ≠ joinP out "app.css" := by
    rw [joinP_joinP]; exact pathNe out (by decide)
  have hidx : joinP (joinP out "open-props") ("borders" ++ ".css") ≠ joinP out "index.css" := by
    rw [joinP_joinP]; exact pathNe out (by decide)
  have hsem : joinP (joinP out "open-props") ("borders" ++ ".css") ≠ joinP out "semantic.css" := by
    rw [joinP_joinP]; exact pathNe out (by decide)
  simp only [generateTokensFS, DEFAULT_CONFIG, List.foldl]
  split
  · rw [readFS_write_ne _ _ hidx, readFS_write_ne _ _ hsem,
      readFS_write_ne _ _ (hopne _ _ (by decide)),
      readFS_write_same]
  · rw [readFS_write_ne _ _ happ, readFS_write_ne _ _ hidx, readFS_write_ne _ _ hsem,
      readFS_write_ne _ _ (hopne _ _ (by decide)),
      readFS_write_same]

/-- generateTokens always (re)writes open-props/easings.css. -/
theorem gen_read_op_easings (out : String) (r : RenderedRun) (fs : FS) :
    readFS (joinP (joinP out "open-props") ("easings" ++ ".css")) (generateTokensFS out r fs) =
      some (r.openPropsCSS "easings") := by
  have hopne : ∀ a b : String, a.data ≠ b.data →
      joinP (joinP out "open-props") a ≠ joinP (joinP out "open-props") b := by
    intro a b h
    rw [joinP_joinP, joinP_joinP, joinP_eq, joinP_eq]
    intro hc
    have hd := congrArg String.data (strAppend_left_cancel hc)
    simp only [String.data_append, ← List.append_assoc] at hd
    exact h (List.append_cancel_left hd)
  have happ : joinP (joinP out "open-props") ("easings" ++ ".css") ≠ joinP out "app.css" := by
    rw [joinP_joinP]; exact pathNe out (by decide)
  have hidx : joinP (joinP out "open-props") ("easings" ++ ".css") ≠ joinP out "index.css" := by
    rw [joinP_joinP]; exact pathNe out (by decide)
  have hsem : joinP (joinP out "open-props") ("easings" ++ ".css") ≠ joinP out "semantic.css" := by
    rw [joinP_joinP]; exact pathNe out (by decide)
  simp only [generateTokensFS, DEFAULT_CONFIG, List.foldl]
  split
  · rw [readFS_write_ne _ _ hidx, readFS_write_ne _ _ hsem,
      readFS_write_same]
  · rw [readFS_write_ne _ _ happ, readFS_write_ne _ _ hidx, readFS_write_ne _ _ hsem,
      readFS_write_same]

/-- C3: running the token pipeline twice against one output directory
leaves an already-present app.css byte-for-byte unchanged - app.css is
written only when the prior existence check fails - while palettes.css,
every adapted Open Props file, semantic.css and index.css are
unconditionally overwritten with the second run's renderings. -/
theorem generateTokens_scaffold_idempotence (out : String) (r1 r2 : RenderedRun) (fs : FS) :
    readFS (joinP out "app.css") (generateTokensFS out r2 (generateTokensFS out r1 fs)) =
      readFS (joinP out "app.css") (generateTokensFS out r1 fs) ∧
    readFS (joinP out "app.css") (generateTokensFS out r1 fs) =
      some ((readFS (joinP out "app.css") fs).getD r1.appCSS) ∧
    readFS (joinP out "semantic.css") (generateTokensFS out r2 (generateTokensFS out r1 fs)) =
      some r2.semanticCSS ∧
    readFS (joinP out "index.css") (generateTokensFS out r2 (generateTokensFS out r1 fs)) =
      some r2.indexCSS ∧
    readFS (joinP (joinP out "material") "palettes.css")
      (generateTokensFS out r2 (generateTokensFS out r1 fs)) = some r2.palettesCSS ∧
    readFS (joinP (joinP out "open-props") ("fonts" ++ ".css"))
      (generateTokensFS out r2 (generateTokensFS out r1 fs)) = some (r2.openPropsCSS "fonts") ∧
    readFS (joinP (joinP out "open-props") ("sizes" ++ ".css"))
      (generateTokensFS out r2 (generateTokensFS out r1 fs)) = some (r2.openPropsCSS "sizes") ∧
    readFS (joinP (joinP out "open-props") ("shadows" ++ ".css"))
      (generateTokensFS out r2 (generateTokensFS out r1 fs)) = some (r2.openPropsCSS "shadows") ∧
    readFS (joinP (joinP out "open-props") ("borders" ++ ".css"))
      (generateTokensFS out r2 (generateTokensFS out r1 fs)) = some (r2.openPropsCSS "borders") ∧
    readFS (joinP (joinP out "open-props") ("easings" ++ ".css"))
      (generateTokensFS out r2 (generateTokensFS out r1 fs)) = some (r2.openPropsCSS "easings") := by
  refine ⟨?_, gen_read_app out r1 fs, gen_read_semantic out r2 _, gen_read_index out r2 _,
    gen_read_palettes out r2 _, gen_read_op_fonts out r2 _, gen_read_op_sizes out r2 _,
    gen_read_op_shadows out r2 _, gen_read_op_borders out r2 _, gen_read_op_easings out r2 _⟩
  rw [gen_read_app out r2, gen_read_app out r1]
  rfl

/-- Uppercase hex digits are hex digits. -/
theorem isHexDigitC_upper : ∀ n < 16, isHexDigitC (upperHexDigit n) = true := by decide

/-- Value of an uppercase hex digit. -/
theorem hexDigitVal_upper : ∀ n < 16, hexDigitVal (upperHexDigit n) = n := by decide

/-- Uppercasing a lowercase hex digit. -/
theorem toUpper_lowerHex : ∀ n < 16, Char.toUpper (lowerHexDigit n) = upperHexDigit n := by decide

/-- normalizeHex is the identity on canonical `#RRGGBB` uppercase values. -/
theorem canonHex_roundtrip (r g b : Nat) (hr : r < 256) (hg : g < 256) (hb : b < 256) :
    normalizeHex (canonHex r g b) = Except.ok (canonHex r g b) := by
  have hr1 : r / 16 < 16 := by omega
  have hr2 : r % 16 < 16 := by omega
  have hg1 : g / 16 < 16 := by omega
  have hg2 : g % 16 < 16 := by omega
  have hb1 : b / 16 < 16 := by omega
  have hb2 : b % 16 < 16 := by omega
  simp only [normalizeHex, formatHex, parseHex, canonHex, List.all_cons, List.all_nil,
    isHexDigitC_upper _ hr1, isHexDigitC_upper _ hr2, isHexDigitC_upper _ hg1,
    isHexDigitC_upper _ hg2, isHexDigitC_upper _ hb1, isHexDigitC_upper _ hb2,
    Bool.and_true, Bool.and_self, if_true, Option.map_some, lowerHex2,
    hexDigitVal_upper _ hr1, hexDigitVal_upper _ hr2, hexDigitVal_upper _ hg1,
    hexDigitVal_upper _ hg2, hexDigitVal_upper _ hb1, hexDigitVal_upper _ hb2,
    Nat.div_add_mod, asciiUpper, List.map, List.cons_append, List.nil_append,
    toUpper_lowerHex _ hr1, toUpper_lowerHex _ hr2, toUpper_lowerHex _ hg1,
    toUpper_lowerHex _ hg2, toUpper_lowerHex _ hb1, toUpper_lowerHex _ hb2]
  have hhash : Char.toUpper '#' = '#' := by decide
  simp only [Option.map_some', List.map, hhash,
    toUpper_lowerHex _ hr1, toUpper_lowerHex _ hr2, toUpper_lowerHex _ hg1,
    toUpper_lowerHex _ hg2, toUpper_lowerHex _ hb1, toUpper_lowerHex _ hb2]

/-- C5 counterexample: normalizeHex on the bare seed "769cdf" raises the
invalid-color error (the underlying CSS color parser requires the leading
`#`), rather than yielding "#769CDF" as the claim states. -/
theorem normalizeHex_bare_seed_errors :
    normalizeHex "769cdf" = Except.error "Invalid hex color: 769cdf" ∧
    ¬ normalizeHex "769cdf" = Except.ok "#769CDF" := by
  constructor
  · rfl
  · intro h
    rw [show normalizeHex "769cdf" = Except.error "Invalid hex color: 769cdf" from rfl] at h
    exact Except.noConfusion h

/-- C5 amended: hex normalization is canonicalizing and idempotent on
`#`-prefixed inputs - normalizeHex maps "#769cdf" and "#769CDF" to
"#769CDF" and is the identity on every canonical `#RRGGBB` uppercase
value - and the seed normalization of generateTheme canonicalizes all
three spellings including the bare "769cdf"; normalizeHex itself,
however, raises InvalidColor on the bare "769cdf". -/
theorem normalizeHex_amended :
    (∀ r g b : Nat, r < 256 → g < 256 → b < 256 →
      normalizeHex (canonHex r g b) = Except.ok (canonHex r g b)) ∧
    normalizeHex "#769cdf" = Except.ok "#769CDF" ∧
    normalizeHex "#769CDF" = Except.ok "#769CDF" ∧
    (∀ (H σ π : Type) (e : Engine H σ π) (now : String) (v : SchemeVariant),
      (generateTheme e now "769cdf" v).seed = "#769CDF" ∧
      (generateTheme e now "#769cdf" v).seed = "#769CDF" ∧
      (generateTheme e now "#769CDF" v).seed = "#769CDF") ∧
    normalizeHex "769cdf" = Except.error "Invalid hex color: 769cdf" := by
  refine ⟨canonHex_roundtrip, by rfl, by rfl, fun H σ π e now v => ⟨rfl, rfl, rfl⟩, by rfl⟩

/-- Witness for normalizeHex_amended: the canonical-value clause at
`#769CDF` (bytes 118, 156, 223) and the generateTheme clause at the
trivial engine. -/
theorem normalizeHex_amended_witness :
    (118 < 256 ∧ 156 < 256 ∧ 223 < 256 ∧ canonHex 118 156 223 = "#769CDF") ∧
    normalizeHex (canonHex 118 156 223) = Except.ok (canonHex 118 156 223) ∧
    (generateTheme trivialEngine "2024-01-01 00:00:00" "769cdf" SchemeVariant.tonalSpot).seed =
      "#769CDF" :=
  ⟨by decide,
   normalizeHex_amended.1 118 156 223 (by decide) (by decide) (by decide),
   (normalizeHex_amended.2.2.2.1 Unit Unit Unit trivialEngine "2024-01-01 00:00:00"
      SchemeVariant.tonalSpot).1⟩

/-- The color-token loop of generateSemanticCSS computes exactly the
specification rendering of the present-role list, for every scheme pair,
formatter and starting group. -/
theorem colorRoleLoop_eq_specRender (fmt : String → Except String String) (semPfx : String)
    (light dark : SchemeKey → Option String) :
    ∀ (roles : List RoleEntry) (cur : String),
      colorRoleLoop fmt semPfx light dark roles cur =
        specRender fmt semPfx (emittedPairs light dark roles) cur := by
  intro roles
  induction roles with
  | nil => intro cur; rfl
  | cons r rs ih =>
    intro cur
    simp only [colorRoleLoop, emittedPairs, List.filterMap_cons]
    cases hl : light r.schemeKey with
    | none =>
      simp only [emittedPairs] at ih
      exact ih cur
    | some lv =>
      cases hd : dark r.schemeKey with
      | none =>
        simp only [emittedPairs] at ih
        exact ih cur
      | some dv =>
        simp only []
        by_cases hemp : lv = "" ∨ dv = ""
        · rw [if_pos hemp, if_pos hemp]
          simp only [emittedPairs] at ih
          exact ih cur
        · rw [if_neg hemp, if_neg hemp]
          simp only [specRender]
          cases hfl : fmt lv with
          | error e => rfl
          | ok lf =>
            cases hfd : fmt dv with
            | error e => rfl
            | ok df =>
              simp only [emittedPairs] at ih
              rw [ih r.group]

/-- C7: in the semantic renderer a color-role token line is emitted if and
only if both the light and the dark value of that role are present and
truthy; a role with an absent value is skipped silently (no error is
raised for it), and the remaining roles are emitted in the declared
COLOR_ROLE_MAP order with their group comment headers inserted at group
changes - the loop equals the filter-then-render specification. -/
theorem generateSemanticCSS_color_roles (fmt : String → Except String String)
    (semPfx : String) (light dark : SchemeKey → Option String) :
    colorRoleLoop fmt semPfx light dark COLOR_ROLE_MAP "" =
      specRender fmt semPfx (emittedPairs light dark COLOR_ROLE_MAP) "" :=
  colorRoleLoop_eq_specRender fmt semPfx light dark COLOR_ROLE_MAP ""

set_option maxHeartbeats 2000000 in
/-- C6: for every parseable hex color the formatter emits
`oklch(L C H)` with L at 2 decimals, C at 3 decimals and H at the nearest
integer degree (the chromatic shape), or the achromatic shape
`oklch(L 0 0)` when the chroma is below the 0.001 threshold; and for the
pure gray #808080 the achromatic branch always fires - chroma and hue are
emitted as the exact `0 0`, never as near-zero noise.  The transcendental
pieces of the conversion (the 2.4-power transfer, cube root, square root,
hue angle) are abstract parameters constrained only by bounds the real
functions satisfy: monotonicity and range bounds, the square root's value
below 0.001 on inputs below 0.000001, and a 4-Lipschitz bound for the
cube root on [1/27, 2], where its slope 1/(3 p^(2/3)) is at most 3. -/
theorem hexToOklch_format_achromatic
    (gammaPow cbrtQ sqrtQ : ℚ → ℚ) (atan2degQ : ℚ → ℚ → ℚ)
    (hmono : ∀ p q : ℚ, 0 ≤ p → p ≤ q → cbrtQ p ≤ cbrtQ q)
    (hlow : ∀ q : ℚ, 0 ≤ q → 0 ≤ cbrtQ q)
    (hhigh : ∀ q : ℚ, 0 ≤ q → q ≤ 2 → cbrtQ q ≤ 2)
    (hlip : ∀ p q : ℚ, 1/27 ≤ p → p ≤ q → q ≤ 2 → cbrtQ q - cbrtQ p ≤ 4 * (q - p))
    (hsqrt : ∀ q : ℚ, 0 ≤ q → q < 0.000001 → sqrtQ q < 0.001)
    (hgray₁ : 1/10 ≤ linChannel gammaPow (128/255))
    (hgray₂ : linChannel gammaPow (128/255) ≤ 1) :
    (∀ hex : String, parseHex hex = none →
      hexToOklchM gammaPow cbrtQ sqrtQ atan2degQ hex =
        Except.error ("Invalid hex color: " ++ hex)) ∧
    (∀ hex : String, ∀ rgb, parseHex hex = some rgb →
      (∃ l, hexToOklchM gammaPow cbrtQ sqrtQ atan2degQ hex = Except.ok (oklchAchromatic l)) ∨
      (∃ l c h, hexToOklchM gammaPow cbrtQ sqrtQ atan2degQ hex =
        Except.ok (oklchChromatic l c h))) ∧
    (∃ l, hexToOklchM gammaPow cbrtQ sqrtQ atan2degQ "#808080" =
      Except.ok (oklchAchromatic l)) := by
  refine ⟨?_, ?_, ?_⟩
  · intro hex h
    simp [hexToOklchM, h]
  · intro hex rgb h
    simp only [hexToOklchM, h]
    split
    · exact Or.inl ⟨_, rfl⟩
    · exact Or.inr ⟨_, _, _, rfl⟩
  · have hp : parseHex "#808080" = some (128, 128, 128) := by rfl
    simp only [hexToOklchM, hp, oklabOf, Nat.cast_ofNat]
    set x := linChannel gammaPow ((128 : ℚ) / 255) with hxdef
    have e1 : (0.41222147079999993 : ℚ) * x + 0.5363325363 * x + 0.0514459929 * x =
        0.99999999999999993 * x := by ring
    have e2 : (0.2119034981999999 : ℚ) * x + 0.6806995450999999 * x + 0.1073969566 * x =
        0.9999999998999998 * x := by ring
    have e3 : (0.08830246189999998 : ℚ) * x + 0.2817188376 * x + 0.6299787005000002 * x =
        1.00000000000000018 * x := by ring
    rw [e1, e2, e3]
    set Lc := cbrtQ (0.99999999999999993 * x) with hLc
    set Mc := cbrtQ (0.9999999998999998 * x) with hMc
    set Sc := cbrtQ (1.00000000000000018 * x) with hSc
    have hx0 : (0 : ℚ) ≤ x := by linarith
    have haM0 : (0 : ℚ) ≤ 0.9999999998999998 * x := by nlinarith
    have haML : (0.9999999998999998 : ℚ) * x ≤ 0.99999999999999993 * x := by nlinarith
    have haLS : (0.99999999999999993 : ℚ) * x ≤ 1.00000000000000018 * x := by nlinarith
    have haMS : (0.9999999998999998 : ℚ) * x ≤ 1.00000000000000018 * x := by nlinarith
    have haM_lb : (1/27 : ℚ) ≤ 0.9999999998999998 * x := by nlinarith
    have haS_ub : (1.00000000000000018 : ℚ) * x ≤ 2 := by nlinarith
    have hMcLc : Mc ≤ Lc := hmono _ _ haM0 haML
    have hLcSc : Lc ≤ Sc := hmono _ _ (le_trans haM0 haML) haLS
    have hM0 : (0 : ℚ) ≤ Mc := hlow _ haM0
    have hM2 : Mc ≤ 2 := hhigh _ haM0 (le_trans haMS haS_ub)
    have hSM : Sc - Mc ≤ 4 * (1.00000000000000018 * x - 0.9999999998999998 * x) :=
      hlip _ _ haM_lb haMS haS_ub
    have hD : Sc - Mc ≤ 0.0000000005 := by nlinarith
    have ha_lb : (0 : ℚ) ≤ 1.9779984951 * Lc - 2.428592205 * Mc + 0.4505937099 * Sc := by
      linarith
    have ha_ub : 1.9779984951 * Lc - 2.428592205 * Mc + 0.4505937099 * Sc ≤ 0.000000002 := by
      linarith
    have hb_lb : (-0.0000000005 : ℚ) ≤
        0.0259040371 * Lc + 0.7827717662 * Mc - 0.808675766 * Sc := by
      linarith
    have hb_ub : 0.0259040371 * Lc + 0.7827717662 * Mc - 0.808675766 * Sc ≤ 0.000000075 := by
      linarith
    set av := 1.9779984951 * Lc - 2.428592205 * Mc + 0.4505937099 * Sc with hav
    set bv := 0.0259040371 * Lc + 0.7827717662 * Mc - 0.808675766 * Sc with hbv
    have haa : av * av ≤ 0.000000002 * 0.000000002 := by nlinarith
    have hbb : bv * bv ≤ 0.000000075 * 0.000000075 := by nlinarith
    have hsum : av * av + bv * bv < 0.000001 := by nlinarith
    have hguard : sqrtQ (av * av + bv * bv) < 0.001 := by
      refine hsqrt _ ?_ hsum
      have h1 := mul_self_nonneg av
      have h2 := mul_self_nonneg bv
      linarith
    rw [if_pos hguard]
    exact ⟨_, rfl⟩

/-- Witness for hexToOklch_format_achromatic: the hypotheses hold for the
identity cube root, a constant transfer value 1/5 and the zero square
root, and the achromatic conclusion follows at #808080. -/
theorem hexToOklch_achromatic_witness :
    ∃ l, hexToOklchM (fun _ => 1/5) (fun q => q) (fun _ => 0) (fun _ _ => 0) "#808080" =
      Except.ok (oklchAchromatic l) :=
  (hexToOklch_format_achromatic (fun _ => 1/5) (fun q => q) (fun _ => 0) (fun _ _ => 0)
    (fun _ _ _ h2 => h2) (fun _ h => h) (fun _ _ h2 => h2)
    (fun _ _ _ h2 _ => by linarith)
    (fun _ _ _ => by norm_num)
    (by norm_num [linChannel]) (by norm_num [linChannel])).2.2
